import Mathlib

/-!
# Verification of the subway endless-runner engine

A shallow embedding in Lean 4 of the simulation core of the repository
(`src/components/GameEngine.tsx`, `src/constants.ts`, `src/types.ts`),
together with theorems settling the frozen claims about it.

Modelling conventions:
* JavaScript numbers are modelled as rationals (`ℚ`); all constants of the
  program are exactly representable and all arithmetic performed by the
  engine on them is field arithmetic plus `Math.floor` (modelled by `⌊·⌋`)
  and `Math.min`/`Math.max` (modelled by `min`/`max`).
* `Math.random()` draws and the `Date.now()`-based ids consumed by
  `spawnObject` are supplied by an explicit oracle (`SpawnRand`).
* The host-visible callbacks `onScoreUpdate`, `onCoinsUpdate`, `onGameOver`
  are modelled as an emitted event list (`GEvent`).
* The mutable refs of the React component become an explicit state record
  (`EngineState`) threaded through the per-frame `update`.
-/

namespace Subway

/-- `GameState` from `src/types.ts`. -/
inductive GameState
  | MENU
  | PLAYING
  | PAUSED
  | GAME_OVER
deriving DecidableEq, Repr

/-- Object types: `ObstacleType` from `src/types.ts` together with the
string literal `COIN` that the engine unions onto it. -/
inductive ObjType
  | TRAIN
  | BARRIER_LOW
  | BARRIER_HIGH
  | COIN
deriving DecidableEq, Repr

namespace Lane

/-- `Lane.LEFT = -1` from `src/types.ts`. -/
def LEFT : ℤ := -1

/-- `Lane.CENTER = 0` from `src/types.ts`. -/
def CENTER : ℤ := 0

/-- `Lane.RIGHT = 1` from `src/types.ts`. -/
def RIGHT : ℤ := 1

end Lane

/-- `GRAVITY = 0.8` (`src/constants.ts`). -/
def GRAVITY : ℚ := 8/10

/-- `JUMP_FORCE = 18` (`src/constants.ts`). -/
def JUMP_FORCE : ℚ := 18

/-- `LANE_SPEED = 0.2` (`src/constants.ts`). -/
def LANE_SPEED : ℚ := 2/10

/-- `GAME_SPEED_START = 20` (`src/constants.ts`). -/
def GAME_SPEED_START : ℚ := 20

/-- `GAME_SPEED_MAX = 60` (`src/constants.ts`). -/
def GAME_SPEED_MAX : ℚ := 60

/-- `TRACK_WIDTH = 500` (`src/constants.ts`). -/
def TRACK_WIDTH : ℚ := 500

/-- `HORIZON_Y = 250` (`src/constants.ts`). -/
def HORIZON_Y : ℚ := 250

/-- `cameraHeight = 400`, a local constant of `project3D`. -/
def cameraHeight : ℚ := 400

/-- `cameraZ = -1000`, a local constant of `project3D`. -/
def cameraZ : ℚ := -1000

/-- `perspective = 800`, a local constant of `project3D`. -/
def perspective : ℚ := 800

/-- Result record of `project3D`: `{ x, y, scale, visible }`. -/
structure Projected where
  x : ℚ
  y : ℚ
  scale : ℚ
  visible : Bool
deriving DecidableEq, Repr

/-- `project3D` from `GameEngine.tsx`: perspective projection of a world
point `(x, y, z)` onto the drawing surface of size `width × height`.
(`height` is received but, as in the source, not used.) -/
def project3D (x y z width height : ℚ) : Projected :=
  let relZ := z - cameraZ
  if relZ ≤ 0 then { x := 0, y := 0, scale := 0, visible := false }
  else
    let scale := perspective / relZ
    { x := width / 2 + x * scale
      y := HORIZON_Y + (cameraHeight - y) * scale
      scale := scale
      visible := true }

/-- `getLaneX` from `GameEngine.tsx`: lane value to world x. -/
def getLaneX (lane : ℚ) : ℚ := lane * (TRACK_WIDTH / 2)

/-- `Player` from `src/types.ts`. -/
structure Player where
  lane : ℚ
  targetLane : ℤ
  y : ℚ
  dy : ℚ
  isJumping : Bool
  isRolling : Bool
  rollTimer : ℤ
deriving DecidableEq, Repr

/-- `GameObject` from `src/types.ts`. -/
structure GameObject where
  id : ℚ
  lane : ℤ
  z : ℚ
  type : ObjType
  active : Bool
deriving DecidableEq, Repr

/-- Host-visible events: the calls the engine makes to `onScoreUpdate`,
`onCoinsUpdate`, and `onGameOver` (the latter carrying the `GameStats`
record `{score, coins, distance, highScore}` with `highScore`
hard-coded to `0`). -/
inductive GEvent
  | scoreUpdate (score : ℤ)
  | coinsUpdate (coins : ℕ)
  | gameOver (score : ℤ) (coins : ℕ) (distance : ℤ) (highScore : ℤ)
deriving DecidableEq, Repr

/-- The mutable refs of the engine gathered into a state record:
`gameState` (the prop gating the update), `playerRef`, `objectsRef`,
`speedRef`, `scoreRef`, `coinsRef`, `distanceRef`, `frameCountRef`. -/
structure EngineState where
  gameState : GameState
  player : Player
  objects : List GameObject
  speed : ℚ
  score : ℤ
  coins : ℕ
  distance : ℚ
  frameCount : ℕ

/-- Oracle for one `spawnObject` call: the three `Math.random()` draws
(for the lane pick, the obstacle-vs-coin draw `r`, and the obstacle
subtype draw `obsR`), and the `Date.now() + Math.random()` id for the
`i`-th object pushed. -/
structure SpawnRand where
  laneR : ℚ
  typeR : ℚ
  obsR : ℚ
  ids : ℕ → ℚ

/-- The lane chosen by `spawnObject`:
`lanes[Math.floor(Math.random() * lanes.length)]`. -/
def spawnLane (r : SpawnRand) : ℤ :=
  [Lane.LEFT, Lane.CENTER, Lane.RIGHT].getD (⌊r.laneR * 3⌋).toNat Lane.CENTER

/-- The type chosen by `spawnObject`:
70% obstacle (40% `TRAIN`, 30% `BARRIER_LOW`, 30% `BARRIER_HIGH`),
30% `COIN`. -/
def spawnType (r : SpawnRand) : ObjType :=
  if r.typeR > 3/10 then
    if r.obsR < 4/10 then ObjType.TRAIN
    else if r.obsR < 7/10 then ObjType.BARRIER_LOW
    else ObjType.BARRIER_HIGH
  else ObjType.COIN

/-- `spawnObject` from `GameEngine.tsx`: pick a lane and a content type;
reject the attempt (no-op) if some existing non-coin object in that lane
still has `z > 2500`; otherwise push either a line of five coins at
depths `3000 + i*150` or a single obstacle at depth `3000`, all
`active`. -/
def spawnObject (r : SpawnRand) (objs : List GameObject) : List GameObject :=
  let lane := spawnLane r
  let type := spawnType r
  let tooClose := objs.any fun o =>
    decide (o.lane = lane) && decide (o.z > 2500) && decide (o.type ≠ ObjType.COIN)
  if tooClose then objs
  else if type = ObjType.COIN then
    objs ++ (List.range 5).map fun i =>
      { id := r.ids i, lane := lane, z := 3000 + (i : ℚ) * 150
        type := ObjType.COIN, active := true }
  else
    objs ++ [{ id := r.ids 0, lane := lane, z := 3000, type := type, active := true }]

/-- `speedRef.current = Math.min(GAME_SPEED_MAX, speedRef.current + 0.015)`. -/
def speedStep (speed : ℚ) : ℚ := min GAME_SPEED_MAX (speed + 15/1000)

/-- The per-frame lane smoothing assignment
`lane += (targetLane - lane) * LANE_SPEED` as a function on the lane value. -/
def laneApproach (targetLane lane : ℚ) : ℚ :=
  lane + (targetLane - lane) * LANE_SPEED

/-- `player.lane += (player.targetLane - player.lane) * LANE_SPEED`. -/
def laneStep (p : Player) : Player :=
  { p with lane := laneApproach (p.targetLane : ℚ) p.lane }

/-- The vertical integration of `update`:
`y += dy; if (y > 0) dy -= GRAVITY; else { y = 0; dy = 0; isJumping = false }`
(the updated `y` is written back before the test, so the test reads
`p.y + p.dy`). -/
def verticalStep (p : Player) : Player :=
  if p.y + p.dy > 0 then { p with y := p.y + p.dy, dy := p.dy - GRAVITY }
  else { p with y := 0, dy := 0, isJumping := false }

/-- The roll-timer maintenance of `update`:
`if (isRolling) { rollTimer--; if (rollTimer <= 0) isRolling = false }`
(the decremented timer is written back before the test). -/
def rollStep (p : Player) : Player :=
  if p.isRolling then
    if p.rollTimer - 1 ≤ 0 then { p with rollTimer := p.rollTimer - 1, isRolling := false }
    else { p with rollTimer := p.rollTimer - 1 }
  else p

/-- The player-physics portion of `update`, in source order:
lane smoothing, then vertical integration, then roll timer. -/
def stepPlayer (p : Player) : Player := rollStep (verticalStep (laneStep p))

/-- The per-object depth used by the collision check: `600` for a train,
`50` otherwise. (The source also sets `objWidth`/`objHeight` defaults but
never reads them in the collision logic.) -/
def objDepth : ObjType → ℚ
  | ObjType.TRAIN => 600
  | _ => 50

/-- The in-place mutation `obj.z -= speedRef.current` at the head of the
object loop. -/
def moveObj (speed : ℚ) (obj : GameObject) : GameObject :=
  { obj with z := obj.z - speed }

/-- The z-interval overlap test of `update`, applied to an object whose
(already advanced) front is at `z`:
`playerZMin < objZMax && playerZMax > objZMin` with the player interval
fixed at `[-50, 50]` and the object interval at `[z, z + objDepth]`. -/
def zOverlapAt (z : ℚ) (t : ObjType) : Prop :=
  -50 < z + objDepth t ∧ 50 > z

instance (z : ℚ) (t : ObjType) : Decidable (zOverlapAt z t) := by
  unfold zOverlapAt; infer_instance

/-- The lane-proximity check of `update`:
`Math.abs(player.lane - obj.lane) < 0.6`. -/
def laneClose (p : Player) (obj : GameObject) : Prop :=
  |p.lane - (obj.lane : ℚ)| < 6/10

instance (p : Player) (obj : GameObject) : Decidable (laneClose p obj) := by
  unfold laneClose; infer_instance

/-- The type-specific hit test of `update` (`hit` is left `false` for a
coin, which the source never reaches on the obstacle path). -/
def hitTest (p : Player) : ObjType → Bool
  | ObjType.TRAIN => decide (p.y < 150)
  | ObjType.BARRIER_LOW => decide (p.y < 60)
  | ObjType.BARRIER_HIGH => !p.isRolling
  | ObjType.COIN => false

/-- Result of processing a single object inside the `update` loop:
the object after its in-place mutations (`z -= speed`, possible
deactivation), the coin counter, the events emitted, and whether an
obstacle hit fired (triggering `onGameOver` and the early `return`). -/
structure ObjStepRes where
  obj : GameObject
  coins : ℕ
  events : List GEvent
  hit : Bool
deriving Repr

/-- One iteration of the `for (const obj of objectsRef.current)` loop body
of `update`, up to (but not including) the cull check: advance the depth,
then run the collision branch. -/
def objStep (p : Player) (speed : ℚ) (score : ℤ) (dist : ℚ) (coins : ℕ)
    (obj : GameObject) : ObjStepRes :=
  if (moveObj speed obj).active
      ∧ zOverlapAt (moveObj speed obj).z (moveObj speed obj).type
      ∧ laneClose p (moveObj speed obj) then
    if (moveObj speed obj).type = ObjType.COIN then
      { obj := { moveObj speed obj with active := false }, coins := coins + 1
        events := [GEvent.coinsUpdate (coins + 1)], hit := false }
    else if hitTest p (moveObj speed obj).type then
      { obj := moveObj speed obj, coins := coins
        events := [GEvent.gameOver score coins ⌊dist⌋ 0], hit := true }
    else
      { obj := moveObj speed obj, coins := coins, events := [], hit := false }
  else
    { obj := moveObj speed obj, coins := coins, events := [], hit := false }

/-- Result of the whole object loop: the next `objectsRef.current`
(the culled `activeObjects` list on normal completion; on a hit, the
original array with its in-place mutations, since the early `return`
skips the reassignment), the coin counter, events, and whether the loop
ended in `onGameOver`. -/
structure LoopRes where
  objs : List GameObject
  coins : ℕ
  events : List GEvent
  over : Bool
deriving Repr

/-- The object-movement/collision/cull loop of `update`. -/
def processObjects (p : Player) (speed : ℚ) (score : ℤ) (dist : ℚ) :
    List GameObject → ℕ → LoopRes
  | [], coins => { objs := [], coins := coins, events := [], over := false }
  | obj :: rest, coins =>
    let r := objStep p speed score dist coins obj
    if r.hit then
      { objs := r.obj :: rest, coins := r.coins, events := r.events, over := true }
    else
      let t := processObjects p speed score dist rest r.coins
      { objs :=
          if t.over then r.obj :: t.objs
          else if r.obj.z + objDepth r.obj.type > -500 then r.obj :: t.objs
          else t.objs
        coins := t.coins
        events := r.events ++ t.events
        over := t.over }

/-- The spawn cadence of `update`:
`Math.max(15, 60 - Math.floor(speed * 0.8))`. -/
def spawnRate (speed : ℚ) : ℕ := max 15 (60 - (⌊speed * (8/10)⌋).toNat)

/-- `update` from `GameEngine.tsx`, one Simulation Step: a no-op unless the
run state is `PLAYING`; otherwise accelerate, accrue distance/score (and
emit the score signal), run the spawner on cadence, advance the player
physics, and run the object loop. On a hit the host (`App.handleGameOver`)
transitions the run state to `GAME_OVER` in response to the game-over
signal; that transition is folded in here. Returns the next state and the
events emitted during the step. -/
def update (r : SpawnRand) (s : EngineState) : EngineState × List GEvent :=
  if s.gameState ≠ GameState.PLAYING then (s, [])
  else
    let speed := speedStep s.speed
    let distance := s.distance + speed / 10
    let score := s.score + ⌊speed / 10⌋
    let frameCount := s.frameCount + 1
    let objs :=
      if frameCount % spawnRate speed = 0 then spawnObject r s.objects
      else s.objects
    let p := stepPlayer s.player
    let res := processObjects p speed score distance objs s.coins
    ({ gameState := if res.over then GameState.GAME_OVER else GameState.PLAYING
       player := p
       objects := res.objs
       speed := speed
       score := score
       coins := res.coins
       distance := distance
       frameCount := frameCount },
     GEvent.scoreUpdate score :: res.events)

/-- The intent events delivered by the key/touch listeners
(`handleKeyDown` / `handleTouchEnd`): lane changes, jump, and duck
(`duck` doubles as the airborne fast-fall). -/
inductive Intent
  | laneLeft
  | laneRight
  | jump
  | duck

/-- `handleKeyDown` from `GameEngine.tsx`, restricted to its effect on the
player record (gated on the run state being `PLAYING`). -/
def handleIntent (gs : GameState) (i : Intent) (p : Player) : Player :=
  if gs ≠ GameState.PLAYING then p
  else
    match i with
    | Intent.laneLeft =>
      if p.targetLane > Lane.LEFT then { p with targetLane := p.targetLane - 1 } else p
    | Intent.laneRight =>
      if p.targetLane < Lane.RIGHT then { p with targetLane := p.targetLane + 1 } else p
    | Intent.jump =>
      if !p.isJumping && !p.isRolling then
        { p with dy := JUMP_FORCE, isJumping := true }
      else p
    | Intent.duck =>
      if !p.isRolling && !p.isJumping then
        { p with isRolling := true, rollTimer := 35 }
      else if p.isJumping then
        { p with dy := -JUMP_FORCE * (3/2) }
      else p

/-- The player record installed by the reset effect (entering `PLAYING`). -/
def initialPlayer : Player :=
  { lane := 0, targetLane := Lane.CENTER, y := 0, dy := 0
    isJumping := false, isRolling := false, rollTimer := 0 }

/-- The engine state installed by the reset effect on the transition into
the playing state. -/
def resetState : EngineState :=
  { gameState := GameState.PLAYING, player := initialPlayer, objects := []
    speed := GAME_SPEED_START, score := 0, coins := 0, distance := 0
    frameCount := 0 }

/-- States reachable from the reset state by Simulation Steps and intent
events. -/
inductive Reachable : EngineState → Prop
  | init : Reachable resetState
  | step (r : SpawnRand) {s : EngineState} :
      Reachable s → Reachable (update r s).1
  | intent (i : Intent) {s : EngineState} :
      Reachable s → Reachable { s with player := handleIntent s.gameState i s.player }

/-- Iterate `update` for `n` frames with a fixed spawn oracle, collecting
the emitted events in order. -/
def runSteps (r : SpawnRand) : ℕ → EngineState → EngineState × List GEvent
  | 0, s => (s, [])
  | n + 1, s =>
    let u := update r s
    let t := runSteps r n u.1
    (t.1, u.2 ++ t.2)

/-- Count of game-over signals in an event list. -/
def countGameOver (es : List GEvent) : ℕ :=
  es.countP fun e =>
    match e with
    | GEvent.gameOver _ _ _ _ => true
    | _ => false

/-- The coin-counter values carried by the coins-changed signals of an
event list, in emission order. -/
def coinEvents (es : List GEvent) : List ℕ :=
  es.filterMap fun e =>
    match e with
    | GEvent.coinsUpdate c => some c
    | _ => none

/-- The spawn/processing pieces of a playing-state `update`, named for the
characterization lemma `update_eq_playing`: the object list after the
cadenced spawner call. -/
def updObjs (r : SpawnRand) (s : EngineState) : List GameObject :=
  if (s.frameCount + 1) % spawnRate (speedStep s.speed) = 0 then spawnObject r s.objects
  else s.objects

/-- The result of the object loop inside a playing-state `update`. -/
def updRes (r : SpawnRand) (s : EngineState) : LoopRes :=
  processObjects (stepPlayer s.player) (speedStep s.speed)
    (s.score + ⌊speedStep s.speed / 10⌋) (s.distance + speedStep s.speed / 10)
    (updObjs r s) s.coins

namespace COLORS

/-- `COLORS.sky[0]` (`src/constants.ts`). -/
def sky0 : String := "#020617"

/-- `COLORS.sky[1]`. -/
def sky1 : String := "#1e1b4b"

/-- `COLORS.ground`. -/
def ground : String := "#0f172a"

/-- `COLORS.grid`. -/
def grid : String := "rgba(236, 72, 153, 0.3)"

/-- `COLORS.train`. -/
def train : String := "#dc2626"

/-- `COLORS.trainSide`. -/
def trainSide : String := "#991b1b"

/-- `COLORS.trainTop`. -/
def trainTop : String := "#ef4444"

/-- `COLORS.barrier`. -/
def barrier : String := "#fb923c"

/-- `COLORS.barrierSide`. -/
def barrierSide : String := "#c2410c"

/-- `COLORS.barrierTop`. -/
def barrierTop : String := "#fdba74"

/-- `COLORS.coin`. -/
def coin : String := "#facc15"

/-- `COLORS.player`. -/
def player : String := "#22d3ee"

/-- `COLORS.playerShadow`. -/
def playerShadow : String := "rgba(0,0,0,0.6)"

end COLORS

/-- One drawing-surface operation, capturing the pixels painted by `draw`:
each constructor records the fill/stroke call of the source together with
its color and the numeric arguments handed to the canvas. A pair of
identical command lists paints identical pixels. -/
inductive DrawCmd
  | gradientRect (c0 c1 : String) (x y w h : ℚ)
  | fillRect (color : String) (x y w h : ℚ)
  | strokeRect (color : String) (lineW x y w h : ℚ)
  | fillEllipse (color : String) (x y rx ry : ℚ)
  | fillArc (color : String) (x y radius : ℚ)
  | fillQuad (color : String) (a b c d : ℚ × ℚ)
  | strokeSegs (color : String) (lineW : ℚ) (segs : List ((ℚ × ℚ) × (ℚ × ℚ)))
deriving DecidableEq, Repr

/-- Screen point of a projection result. -/
def pt (p : Projected) : ℚ × ℚ := (p.x, p.y)

/-- `drawCube` from `GameEngine.tsx`: project the corner set, bail out
when the front face is not visible, then paint the top face, one side
face, the front face, and its border. -/
def drawCube (x y z w h d : ℚ) (front top side : String) (width height : ℚ) :
    List DrawCmd :=
  if ¬(project3D (x - w/2) (y + h) z width height).visible
      ∨ ¬(project3D (x + w/2) y z width height).visible then []
  else
    [DrawCmd.fillQuad top
        (pt (project3D (x - w/2) (y + h) z width height))
        (pt (project3D (x + w/2) (y + h) z width height))
        (pt (project3D (x + w/2) (y + h) (z + d) width height))
        (pt (project3D (x - w/2) (y + h) (z + d) width height))]
    ++ (if x < 0 then
          [DrawCmd.fillQuad side
              (pt (project3D (x + w/2) (y + h) z width height))
              (pt (project3D (x + w/2) (y + h) (z + d) width height))
              (pt (project3D (x + w/2) y (z + d) width height))
              (pt (project3D (x + w/2) y z width height))]
        else
          [DrawCmd.fillQuad side
              (pt (project3D (x - w/2) (y + h) z width height))
              (pt (project3D (x - w/2) (y + h) (z + d) width height))
              (pt (project3D (x - w/2) y (z + d) width height))
              (pt (project3D (x - w/2) y z width height))])
    ++ [DrawCmd.fillRect front
          (project3D (x - w/2) (y + h) z width height).x
          (project3D (x - w/2) (y + h) z width height).y
          ((project3D (x + w/2) (y + h) z width height).x
            - (project3D (x - w/2) (y + h) z width height).x)
          ((project3D (x - w/2) y z width height).y
            - (project3D (x - w/2) (y + h) z width height).y),
        DrawCmd.strokeRect "rgba(0,0,0,0.2)" 1
          (project3D (x - w/2) (y + h) z width height).x
          (project3D (x - w/2) (y + h) z width height).y
          ((project3D (x + w/2) (y + h) z width height).x
            - (project3D (x - w/2) (y + h) z width height).x)
          ((project3D (x - w/2) y z width height).y
            - (project3D (x - w/2) (y + h) z width height).y)]

/-- The JavaScript `%` operator on the nonnegative numbers the grid code
feeds it (`distanceRef.current % gridSpacing`). -/
def jsMod (a b : ℚ) : ℚ := a - b * ⌊a / b⌋

/-- The vertical (lane-convergence) grid lines: `for (let i = -5; i <= 5; i++)`,
each a segment from the projection at depth 4000 to the one at depth 0. -/
def gridVerts (width height : ℚ) : List ((ℚ × ℚ) × (ℚ × ℚ)) :=
  (List.range 11).map fun k =>
    (pt (project3D (((k : ℚ) - 5) * (TRACK_WIDTH / 2)) 0 4000 width height),
     pt (project3D (((k : ℚ) - 5) * (TRACK_WIDTH / 2)) 0 0 width height))

/-- The horizontal grid lines: `for (let z = 4000; z >= 0; z -= 200)` with
`drawZ = z - offset`, skipping negative depths. -/
def gridHorizSegs (offset width height : ℚ) : List ((ℚ × ℚ) × (ℚ × ℚ)) :=
  (List.range 21).filterMap fun k =>
    if (4000 - 200 * (k : ℚ)) - offset < 0 then none
    else some
      (pt (project3D (-2000) 0 ((4000 - 200 * (k : ℚ)) - offset) width height),
       pt (project3D 2000 0 ((4000 - 200 * (k : ℚ)) - offset) width height))

/-- Insertion into a list sorted by descending `z`. -/
def insertByZ (o : GameObject) : List GameObject → List GameObject
  | [] => [o]
  | a :: rest => if o.z ≥ a.z then o :: a :: rest else a :: insertByZ o rest

/-- `[...objectsRef.current].sort((a, b) => b.z - a.z)`: the draw order,
farthest object first. -/
def sortByZDesc : List GameObject → List GameObject
  | [] => []
  | a :: rest => insertByZ a (sortByZDesc rest)

/-- The per-object drawing of `draw`. Inactive objects are skipped. The
`spin` argument is the value `Math.sin(Date.now() / 100)` the environment
produces at the invocation instant; it scales the coin ellipse width
(the two headlight arcs of a train, filled by one canvas call in the
source, are recorded as two commands). -/
def objectCmds (spin width height : ℚ) (obj : GameObject) : List DrawCmd :=
  if ¬obj.active then []
  else
    match obj.type with
    | ObjType.COIN =>
      [DrawCmd.fillEllipse COLORS.coin
          (project3D (getLaneX (obj.lane : ℚ)) 50 obj.z width height).x
          (project3D (getLaneX (obj.lane : ℚ)) 50 obj.z width height).y
          (60 * (project3D (getLaneX (obj.lane : ℚ)) 50 obj.z width height).scale * |spin| / 2)
          (60 * (project3D (getLaneX (obj.lane : ℚ)) 50 obj.z width height).scale / 2),
       DrawCmd.fillEllipse "#fff"
          (project3D (getLaneX (obj.lane : ℚ)) 50 obj.z width height).x
          (project3D (getLaneX (obj.lane : ℚ)) 50 obj.z width height).y
          (60 * (project3D (getLaneX (obj.lane : ℚ)) 50 obj.z width height).scale * |spin| / 4)
          (60 * (project3D (getLaneX (obj.lane : ℚ)) 50 obj.z width height).scale / 4)]
    | ObjType.TRAIN =>
      drawCube (getLaneX (obj.lane : ℚ)) 0 obj.z 160 160 600
          COLORS.train COLORS.trainTop COLORS.trainSide width height
      ++ [DrawCmd.fillArc "#fef08a"
            (project3D (getLaneX (obj.lane : ℚ) - 40) 40 (obj.z - 1) width height).x
            (project3D (getLaneX (obj.lane : ℚ) - 40) 40 (obj.z - 1) width height).y
            (20 * (project3D (getLaneX (obj.lane : ℚ) - 40) 40 (obj.z - 1) width height).scale),
          DrawCmd.fillArc "#fef08a"
            (project3D (getLaneX (obj.lane : ℚ) + 40) 40 (obj.z - 1) width height).x
            (project3D (getLaneX (obj.lane : ℚ) + 40) 40 (obj.z - 1) width height).y
            (20 * (project3D (getLaneX (obj.lane : ℚ) - 40) 40 (obj.z - 1) width height).scale)]
    | ObjType.BARRIER_LOW =>
      drawCube (getLaneX (obj.lane : ℚ)) 0 obj.z 160 60 20
        COLORS.barrier COLORS.barrierTop COLORS.barrierSide width height
    | ObjType.BARRIER_HIGH =>
      drawCube (getLaneX (obj.lane : ℚ)) 0 obj.z 160 180 20
          COLORS.barrier COLORS.barrierTop COLORS.barrierSide width height
      ++ [DrawCmd.fillRect COLORS.ground
            ((project3D (getLaneX (obj.lane : ℚ)) 0 (obj.z - 1) width height).x
              - 80 * (project3D (getLaneX (obj.lane : ℚ)) 0 (obj.z - 1) width height).scale / 2)
            ((project3D (getLaneX (obj.lane : ℚ)) 0 (obj.z - 1) width height).y
              - 80 * (project3D (getLaneX (obj.lane : ℚ)) 0 (obj.z - 1) width height).scale)
            (80 * (project3D (getLaneX (obj.lane : ℚ)) 0 (obj.z - 1) width height).scale)
            (80 * (project3D (getLaneX (obj.lane : ℚ)) 0 (obj.z - 1) width height).scale)]

/-- The player portion of `draw`: shadow, body cuboid (height halved while
rolling), and the airborne glow. Drawn only in the `PLAYING` state. -/
def playerCmds (gs : GameState) (p : Player) (width height : ℚ) : List DrawCmd :=
  if gs ≠ GameState.PLAYING then []
  else
    [DrawCmd.fillEllipse COLORS.playerShadow
        (project3D (getLaneX p.lane) 0 0 width height).x
        (project3D (getLaneX p.lane) 0 0 width height).y
        (80 * (project3D (getLaneX p.lane) 0 0 width height).scale / 2)
        (80 * (project3D (getLaneX p.lane) 0 0 width height).scale / 5)]
    ++ drawCube (getLaneX p.lane) p.y 0 50 (if p.isRolling then 50 else 100) 30
        COLORS.player "#67e8f9" "#0891b2" width height
    ++ (if p.isJumping then
          [DrawCmd.fillRect "#ec4899"
              ((project3D (getLaneX p.lane) p.y 0 width height).x
                - 30 * (project3D (getLaneX p.lane) p.y 0 width height).scale)
              (project3D (getLaneX p.lane) p.y 0 width height).y
              (60 * (project3D (getLaneX p.lane) p.y 0 width height).scale)
              (10 * (project3D (getLaneX p.lane) p.y 0 width height).scale)]
        else [])

/-- `draw` from `GameEngine.tsx` as the list of painting commands of one
frame: sky gradient, celestial accent, ground fill, the grid stroke,
the depth-sorted objects, then the player. It reads the World State and
the oscillation value; it performs no mutation of the World State
(it is a function of them). -/
def draw (s : EngineState) (spin width height : ℚ) : List DrawCmd :=
  [DrawCmd.gradientRect COLORS.sky0 COLORS.sky1 0 0 width height,
   DrawCmd.fillArc "#fbcfe8" (width / 2) (HORIZON_Y - 80) 120,
   DrawCmd.fillRect COLORS.ground 0 HORIZON_Y width (height - HORIZON_Y),
   DrawCmd.strokeSegs COLORS.grid 2
     (gridVerts width height ++ gridHorizSegs (jsMod s.distance 200) width height)]
  ++ (sortByZDesc s.objects).flatMap (objectCmds spin width height)
  ++ playerCmds s.gameState s.player width height

/-! ## General lemmas about the embedded engine -/

/-- A spawn oracle used to instantiate witnesses. -/
def oracle0 : SpawnRand := { laneR := 0, typeR := 0, obsR := 0, ids := fun _ => 0 }

theorem speedStep_le_max (q : ℚ) : speedStep q ≤ GAME_SPEED_MAX :=
  min_le_left _ _

theorem le_speedStep {q : ℚ} (h : q ≤ GAME_SPEED_MAX) : q ≤ speedStep q :=
  le_min h (by linarith)

theorem speedStep_ge_of_ge {q : ℚ} (h : 20 ≤ q) : 20 ≤ speedStep q := by
  unfold speedStep GAME_SPEED_MAX
  rw [le_min_iff]
  constructor <;> linarith

/-- A playing-state `update`, with its pieces named. -/
theorem update_eq_playing (r : SpawnRand) (s : EngineState)
    (h : s.gameState = GameState.PLAYING) :
    update r s =
      ({ gameState := if (updRes r s).over then GameState.GAME_OVER else GameState.PLAYING
         player := stepPlayer s.player
         objects := (updRes r s).objs
         speed := speedStep s.speed
         score := s.score + ⌊speedStep s.speed / 10⌋
         coins := (updRes r s).coins
         distance := s.distance + speedStep s.speed / 10
         frameCount := s.frameCount + 1 },
       GEvent.scoreUpdate (s.score + ⌊speedStep s.speed / 10⌋) :: (updRes r s).events) := by
  rw [update, if_neg (by simp [h])]
  rfl

theorem update_not_playing (r : SpawnRand) (s : EngineState)
    (h : s.gameState ≠ GameState.PLAYING) :
    update r s = (s, []) := by
  rw [update, if_pos h]

/-! ## C2: projection visibility and formulas -/

/-- **C2.** For every input `(x, y, z, surfaceWidth, surfaceHeight)`,
`project3D` returns `visible = false` and `scale = 0` if and only if
`z - cameraZ ≤ 0` (with `cameraZ = -1000`); otherwise it returns
`visible = true` with `scale = perspective / (z - cameraZ)`,
`screenX = surfaceWidth/2 + x*scale`, and
`screenY = horizonY + (cameraHeight - y)*scale`. -/
theorem C2_project_visibility (x y z width height : ℚ) :
    (((project3D x y z width height).visible = false
        ∧ (project3D x y z width height).scale = 0)
      ↔ z - cameraZ ≤ 0)
    ∧ (0 < z - cameraZ →
        project3D x y z width height =
          { x := width / 2 + x * (perspective / (z - cameraZ))
            y := HORIZON_Y + (cameraHeight - y) * (perspective / (z - cameraZ))
            scale := perspective / (z - cameraZ)
            visible := true }) := by
  constructor
  · by_cases h : z - cameraZ ≤ 0 <;> simp [project3D, h]
  · intro h
    rw [project3D, if_neg (by linarith)]

/-- Witness for C2 at `(x, y, z, w, h) = (1, 2, 3, 100, 50)`:
`z - cameraZ = 1003 > 0` and the formulas hold there. -/
theorem C2_witness :
    project3D 1 2 3 100 50 =
      { x := 100 / 2 + 1 * (perspective / (3 - cameraZ))
        y := HORIZON_Y + (cameraHeight - 2) * (perspective / (3 - cameraZ))
        scale := perspective / (3 - cameraZ)
        visible := true } :=
  (C2_project_visibility 1 2 3 100 50).2 (by norm_num [cameraZ])

/-! ## C8: speed is non-decreasing and capped -/

/-- **C8.** Starting from the configured minimum speed, the per-step speed
value is non-decreasing and never exceeds the configured maximum; and every
playing-state Simulation Step advances the speed by exactly this
`speedStep` rule. -/
theorem C8_speed_monotone_capped :
    (∀ n : ℕ,
      speedStep^[n] GAME_SPEED_START ≤ speedStep^[n + 1] GAME_SPEED_START
        ∧ speedStep^[n] GAME_SPEED_START ≤ GAME_SPEED_MAX)
    ∧ ∀ (r : SpawnRand) (s : EngineState), s.gameState = GameState.PLAYING →
        (update r s).1.speed = speedStep s.speed := by
  have bound : ∀ n : ℕ, speedStep^[n] GAME_SPEED_START ≤ GAME_SPEED_MAX := by
    intro n
    induction n with
    | zero => norm_num [GAME_SPEED_START, GAME_SPEED_MAX]
    | succ n _ =>
      rw [Function.iterate_succ_apply']
      exact speedStep_le_max _
  refine ⟨fun n => ⟨?_, bound n⟩, fun r s h => ?_⟩
  · rw [Function.iterate_succ_apply']
    exact le_speedStep (bound n)
  · rw [update_eq_playing r s h]

/-- Witness for C8 at `n = 0` and at the reset state. -/
theorem C8_witness :
    (speedStep^[0] GAME_SPEED_START ≤ speedStep^[0 + 1] GAME_SPEED_START
      ∧ speedStep^[0] GAME_SPEED_START ≤ GAME_SPEED_MAX)
    ∧ (update oracle0 resetState).1.speed = speedStep resetState.speed :=
  ⟨C8_speed_monotone_capped.1 0, C8_speed_monotone_capped.2 oracle0 resetState rfl⟩

/-! ## C7: spawn anti-overlap -/

/-- **C7.** If the object set holds a non-pickup object in the chosen lane
with `z` beyond the near threshold 2500, the spawn attempt is a no-op: in
particular it adds no non-pickup object. -/
theorem C7_spawn_anti_overlap (r : SpawnRand) (objs : List GameObject)
    (h : ∃ o ∈ objs, o.lane = spawnLane r ∧ o.z > 2500 ∧ o.type ≠ ObjType.COIN) :
    spawnObject r objs = objs := by
  obtain ⟨o, ho, h1, h2, h3⟩ := h
  have hany : (objs.any fun o =>
      decide (o.lane = spawnLane r) && decide (o.z > 2500)
        && decide (o.type ≠ ObjType.COIN)) = true := by
    rw [List.any_eq_true]
    exact ⟨o, ho, by simp [h1, h2, h3]⟩
  simp only [spawnObject, hany, if_true]

/-- Witness for C7: a train at `z = 2600` in the center lane blocks a
center-lane spawn attempt. -/
theorem C7_witness :
    spawnObject { laneR := 1/3, typeR := 1, obsR := 0, ids := fun _ => 0 }
        [{ id := 0, lane := 0, z := 2600, type := ObjType.TRAIN, active := true }]
      = [{ id := 0, lane := 0, z := 2600, type := ObjType.TRAIN, active := true }] :=
  C7_spawn_anti_overlap _ _
    ⟨{ id := 0, lane := 0, z := 2600, type := ObjType.TRAIN, active := true },
     by simp,
     by norm_num [spawnLane, Lane.LEFT, Lane.CENTER, Lane.RIGHT],
     by norm_num, by decide⟩

/-! ## Player-physics lemmas -/

theorem laneStep_y (p : Player) : (laneStep p).y = p.y := rfl

theorem laneStep_dy (p : Player) : (laneStep p).dy = p.dy := rfl

theorem laneStep_isJumping (p : Player) : (laneStep p).isJumping = p.isJumping := rfl

theorem laneStep_isRolling (p : Player) : (laneStep p).isRolling = p.isRolling := rfl

theorem rollStep_y (p : Player) : (rollStep p).y = p.y := by
  unfold rollStep; split_ifs <;> rfl

theorem rollStep_dy (p : Player) : (rollStep p).dy = p.dy := by
  unfold rollStep; split_ifs <;> rfl

theorem rollStep_isJumping (p : Player) : (rollStep p).isJumping = p.isJumping := by
  unfold rollStep; split_ifs <;> rfl

theorem verticalStep_y_nonneg (p : Player) : 0 ≤ (verticalStep p).y := by
  unfold verticalStep
  split_ifs with h
  · exact le_of_lt h
  · exact le_refl 0

theorem verticalStep_isRolling (p : Player) : (verticalStep p).isRolling = p.isRolling := by
  unfold verticalStep; split_ifs <;> rfl

theorem verticalStep_grounded (p : Player) (h : p.y + p.dy ≤ 0) :
    verticalStep p = { p with y := 0, dy := 0, isJumping := false } := by
  unfold verticalStep
  rw [if_neg (by linarith)]

theorem stepPlayer_y_nonneg (p : Player) : 0 ≤ (stepPlayer p).y := by
  unfold stepPlayer
  rw [rollStep_y]
  exact verticalStep_y_nonneg (laneStep p)

/-! ## C3: vertical clamp and ground snap -/

/-- **C3.** The vertical integration inside every Simulation Step keeps the
player at `y ≥ 0`; on the step in which integration drives `y` to `0` or
below, `y` is snapped to exactly `0`, `dy` to exactly `0`, and `isJumping`
is cleared; and a Simulation Step never takes a player with `y ≥ 0` to
`y < 0`. -/
theorem C3_vertical_clamp :
    (∀ p : Player, 0 ≤ (stepPlayer p).y)
    ∧ (∀ p : Player, p.y + p.dy ≤ 0 →
        (stepPlayer p).y = 0 ∧ (stepPlayer p).dy = 0
          ∧ (stepPlayer p).isJumping = false)
    ∧ ∀ (r : SpawnRand) (s : EngineState), 0 ≤ s.player.y →
        0 ≤ (update r s).1.player.y := by
  refine ⟨stepPlayer_y_nonneg, fun p h => ?_, fun r s h => ?_⟩
  · have hsnap : verticalStep (laneStep p) =
        { laneStep p with y := 0, dy := 0, isJumping := false } :=
      verticalStep_grounded (laneStep p) (by rw [laneStep_y, laneStep_dy]; exact h)
    unfold stepPlayer
    rw [hsnap]
    refine ⟨rollStep_y _, rollStep_dy _, ?_⟩
    rw [rollStep_isJumping]
  · by_cases hgs : s.gameState = GameState.PLAYING
    · rw [update_eq_playing r s hgs]
      exact stepPlayer_y_nonneg s.player
    · rw [update_not_playing r s hgs]
      exact h

/-- Witness for C3 at the initial player (grounded, `y + dy = 0`) and the
reset state. -/
theorem C3_witness :
    (0 ≤ (stepPlayer initialPlayer).y)
    ∧ ((stepPlayer initialPlayer).y = 0 ∧ (stepPlayer initialPlayer).dy = 0
        ∧ (stepPlayer initialPlayer).isJumping = false)
    ∧ 0 ≤ (update oracle0 resetState).1.player.y :=
  ⟨C3_vertical_clamp.1 initialPlayer,
   C3_vertical_clamp.2.1 initialPlayer (by norm_num [initialPlayer]),
   C3_vertical_clamp.2.2 oracle0 resetState (by norm_num [resetState, initialPlayer])⟩

/-! ## C10: inactive objects are inert -/

/-- Run a single object through a sequence of per-frame speeds, carrying
the coin counter exactly as the object loop would for that object alone:
the coin count an object can produce over the frames of its lifetime. -/
def coinYield (p : Player) (score : ℤ) (dist : ℚ) :
    List ℚ → ℕ → GameObject → ℕ
  | [], coins, _ => coins
  | sp :: rest, coins, obj =>
    coinYield p score dist rest (objStep p sp score dist coins obj).coins
      (objStep p sp score dist coins obj).obj

theorem objStep_inactive (p : Player) (sp : ℚ) (sc : ℤ) (dist : ℚ) (coins : ℕ)
    (obj : GameObject) (h : obj.active = false) :
    objStep p sp sc dist coins obj =
      { obj := moveObj sp obj, coins := coins, events := [], hit := false } := by
  unfold objStep
  rw [if_neg]
  intro hc
  have : (moveObj sp obj).active = true := hc.1
  rw [show (moveObj sp obj).active = obj.active from rfl, h] at this
  exact Bool.false_ne_true this

theorem moveObj_active (sp : ℚ) (obj : GameObject) :
    (moveObj sp obj).active = obj.active := rfl

theorem objStep_coins_cases (p : Player) (sp : ℚ) (sc : ℤ) (dist : ℚ) (coins : ℕ)
    (obj : GameObject) :
    (objStep p sp sc dist coins obj).coins = coins
    ∨ ((objStep p sp sc dist coins obj).coins = coins + 1
        ∧ (objStep p sp sc dist coins obj).obj.active = false) := by
  unfold objStep
  split_ifs with h1 h2 h3
  · exact Or.inr ⟨rfl, rfl⟩
  · exact Or.inl rfl
  · exact Or.inl rfl
  · exact Or.inl rfl

theorem coinYield_inactive (p : Player) (sc : ℤ) (dist : ℚ) :
    ∀ (speeds : List ℚ) (coins : ℕ) (obj : GameObject), obj.active = false →
      coinYield p sc dist speeds coins obj = coins := by
  intro speeds
  induction speeds with
  | nil => intro coins obj _; rfl
  | cons sp rest ih =>
    intro coins obj h
    unfold coinYield
    rw [objStep_inactive p sp sc dist coins obj h]
    exact ih coins (moveObj sp obj) (by rw [moveObj_active]; exact h)

/-- **C10.** An object whose `active` flag is `false` is inert: processing
it in a Simulation Step leaves the coin counter unchanged, emits no signal
(in particular no coins-changed and no game-over signal), does not hit, and
only advances its depth (leaving it inactive); consequently any single
object contributes at most one coin over any sequence of steps. -/
theorem C10_inactive_inert :
    (∀ (p : Player) (sp : ℚ) (sc : ℤ) (dist : ℚ) (coins : ℕ) (obj : GameObject),
      obj.active = false →
        objStep p sp sc dist coins obj =
          { obj := moveObj sp obj, coins := coins, events := [], hit := false })
    ∧ ∀ (p : Player) (sc : ℤ) (dist : ℚ) (speeds : List ℚ) (coins : ℕ)
        (obj : GameObject),
        coinYield p sc dist speeds coins obj ≤ coins + 1 := by
  refine ⟨objStep_inactive, fun p sc dist speeds => ?_⟩
  induction speeds with
  | nil => intro coins obj; exact Nat.le_succ coins
  | cons sp rest ih =>
    intro coins obj
    unfold coinYield
    rcases objStep_coins_cases p sp sc dist coins obj with h | ⟨h1, h2⟩
    · rw [h]; exact ih coins _
    · rw [coinYield_inactive p sc dist rest _ _ h2, h1]

/-- Witness for C10: a deactivated coin right on top of the player yields
nothing, and a live one yields at most one coin over two frames. -/
theorem C10_witness :
    (objStep initialPlayer 20 0 0 3
        { id := 0, lane := 0, z := 0, type := ObjType.COIN, active := false } =
      { obj := moveObj 20 { id := 0, lane := 0, z := 0, type := ObjType.COIN, active := false }
        coins := 3, events := [], hit := false })
    ∧ coinYield initialPlayer 0 0 [20, 20] 3
        { id := 0, lane := 0, z := 0, type := ObjType.COIN, active := true } ≤ 3 + 1 :=
  ⟨C10_inactive_inert.1 initialPlayer 20 0 0 3 _ rfl,
   C10_inactive_inert.2 initialPlayer 0 0 [20, 20] 3 _⟩

/-! ## C6: lane smoothing convergence -/

theorem laneApproach_gap (t l : ℚ) : t - laneApproach t l = (4/5) * (t - l) := by
  unfold laneApproach LANE_SPEED
  ring

theorem laneApproach_gap_iterate (t l : ℚ) (n : ℕ) :
    t - (laneApproach t)^[n] l = (4/5) ^ n * (t - l) := by
  induction n with
  | zero => simp
  | succ n ih =>
    rw [Function.iterate_succ_apply', laneApproach_gap, ih, pow_succ]
    ring

/-- **C6.** For every starting lane in `[-1, 1]` and constant target lane in
`{-1, 0, 1}`, the repeated smoothing step `lane += (target - lane) * 0.2`
moves the lane monotonically toward the target with no overshoot: the
remaining gap is `(4/5)ⁿ` times the initial gap, its absolute value
strictly decreases while nonzero, and its sign never flips. -/
theorem C6_lane_smoothing (lane : ℚ) (target : ℤ)
    (h1 : -1 ≤ lane) (h2 : lane ≤ 1)
    (h3 : target = Lane.LEFT ∨ target = Lane.CENTER ∨ target = Lane.RIGHT) :
    ∀ n : ℕ,
      ((target : ℚ) - (laneApproach (target : ℚ))^[n] lane
          = (4/5) ^ n * ((target : ℚ) - lane))
      ∧ ((target : ℚ) - (laneApproach (target : ℚ))^[n] lane ≠ 0 →
          |(target : ℚ) - (laneApproach (target : ℚ))^[n + 1] lane|
            < |(target : ℚ) - (laneApproach (target : ℚ))^[n] lane|)
      ∧ (0 < (target : ℚ) - (laneApproach (target : ℚ))^[n] lane →
          0 < (target : ℚ) - (laneApproach (target : ℚ))^[n + 1] lane)
      ∧ ((target : ℚ) - (laneApproach (target : ℚ))^[n] lane < 0 →
          (target : ℚ) - (laneApproach (target : ℚ))^[n + 1] lane < 0) := by
  intro n
  have hstep : (target : ℚ) - (laneApproach (target : ℚ))^[n + 1] lane
      = (4/5) * ((target : ℚ) - (laneApproach (target : ℚ))^[n] lane) := by
    rw [Function.iterate_succ_apply', laneApproach_gap]
  refine ⟨laneApproach_gap_iterate _ _ n, fun hne => ?_, fun hpos => ?_, fun hneg => ?_⟩
  · rw [hstep, abs_mul, show |(4/5 : ℚ)| = 4/5 by norm_num]
    have habs : 0 < |(target : ℚ) - (laneApproach (target : ℚ))^[n] lane| :=
      abs_pos.mpr hne
    linarith
  · rw [hstep]; linarith
  · rw [hstep]; linarith

/-- Witness for C6 at `lane = 0`, `target = RIGHT`, `n = 0`. -/
theorem C6_witness :
    (((Lane.RIGHT : ℤ) : ℚ) - (laneApproach ((Lane.RIGHT : ℤ) : ℚ))^[0] 0
        = (4/5) ^ 0 * (((Lane.RIGHT : ℤ) : ℚ) - 0))
    ∧ (((Lane.RIGHT : ℤ) : ℚ) - (laneApproach ((Lane.RIGHT : ℤ) : ℚ))^[0] 0 ≠ 0 →
        |((Lane.RIGHT : ℤ) : ℚ) - (laneApproach ((Lane.RIGHT : ℤ) : ℚ))^[0 + 1] 0|
          < |((Lane.RIGHT : ℤ) : ℚ) - (laneApproach ((Lane.RIGHT : ℤ) : ℚ))^[0] 0|)
    ∧ (0 < ((Lane.RIGHT : ℤ) : ℚ) - (laneApproach ((Lane.RIGHT : ℤ) : ℚ))^[0] 0 →
        0 < ((Lane.RIGHT : ℤ) : ℚ) - (laneApproach ((Lane.RIGHT : ℤ) : ℚ))^[0 + 1] 0)
    ∧ (((Lane.RIGHT : ℤ) : ℚ) - (laneApproach ((Lane.RIGHT : ℤ) : ℚ))^[0] 0 < 0 →
        ((Lane.RIGHT : ℤ) : ℚ) - (laneApproach ((Lane.RIGHT : ℤ) : ℚ))^[0 + 1] 0 < 0) :=
  C6_lane_smoothing 0 Lane.RIGHT (by norm_num) (by norm_num)
    (Or.inr (Or.inr rfl)) 0

/-! ## C4: jumping and rolling are mutually exclusive -/

theorem stepPlayer_isJumping_mono (p : Player)
    (h : (stepPlayer p).isJumping = true) : p.isJumping = true := by
  rw [show (stepPlayer p).isJumping = (verticalStep (laneStep p)).isJumping from
    rollStep_isJumping _] at h
  unfold verticalStep at h
  split_ifs at h with hy
  all_goals first
  | exact h
  | exact absurd h (by simp)

theorem stepPlayer_isRolling_mono (p : Player)
    (h : (stepPlayer p).isRolling = true) : p.isRolling = true := by
  have hq : (verticalStep (laneStep p)).isRolling = p.isRolling := by
    rw [verticalStep_isRolling, laneStep_isRolling]
  by_cases hr : (verticalStep (laneStep p)).isRolling = true
  · rw [← hq]; exact hr
  · unfold stepPlayer rollStep at h
    rw [if_neg hr] at h
    exact absurd h hr

theorem handleIntent_flags (gs : GameState) (i : Intent) (p : Player)
    (h : ¬(p.isJumping = true ∧ p.isRolling = true)) :
    ¬((handleIntent gs i p).isJumping = true
        ∧ (handleIntent gs i p).isRolling = true) := by
  unfold handleIntent
  by_cases hgs : gs ≠ GameState.PLAYING
  · rw [if_pos hgs]; exact h
  · rw [if_neg hgs]
    cases i with
    | laneLeft => dsimp only; split_ifs <;> exact h
    | laneRight => dsimp only; split_ifs <;> exact h
    | jump =>
      dsimp only
      split_ifs with hc
      · simp only [Bool.and_eq_true, Bool.not_eq_true'] at hc
        intro hcon
        have hcr := show p.isRolling = true from hcon.2
        rw [hc.2] at hcr
        exact Bool.false_ne_true hcr
      · exact h
    | duck =>
      dsimp only
      split_ifs with hc hj
      · simp only [Bool.and_eq_true, Bool.not_eq_true'] at hc
        intro hcon
        have hcj := show p.isJumping = true from hcon.1
        rw [hc.2] at hcj
        exact Bool.false_ne_true hcj
      · exact h
      · exact h

theorem update_player_shape (r : SpawnRand) (s : EngineState) :
    (update r s).1.player = s.player ∨ (update r s).1.player = stepPlayer s.player := by
  by_cases h : s.gameState = GameState.PLAYING
  · rw [update_eq_playing r s h]; exact Or.inr rfl
  · rw [update_not_playing r s h]; exact Or.inl rfl

/-- **C4.** In every state reachable from the reset state by intent events
and Simulation Steps, the player is never simultaneously jumping and
rolling. -/
theorem C4_jump_roll_exclusive (s : EngineState) (h : Reachable s) :
    ¬(s.player.isJumping = true ∧ s.player.isRolling = true) := by
  induction h with
  | init =>
    intro hcon
    exact Bool.false_ne_true hcon.1
  | step r hs ih =>
    rename_i s'
    rcases update_player_shape r s' with he | he
    · rw [he]; exact ih
    · rw [he]
      intro hcon
      exact ih ⟨stepPlayer_isJumping_mono _ hcon.1, stepPlayer_isRolling_mono _ hcon.2⟩
  | intent i hs ih =>
    exact handleIntent_flags _ i _ ih

/-- Witness for C4 at the reset state. -/
theorem C4_witness :
    ¬(resetState.player.isJumping = true ∧ resetState.player.isRolling = true) :=
  C4_jump_roll_exclusive resetState Reachable.init

/-! ## Object-loop lemmas -/

theorem countGameOver_append (a b : List GEvent) :
    countGameOver (a ++ b) = countGameOver a + countGameOver b := by
  unfold countGameOver
  exact List.countP_append _ _ _

/-- The conditions under which an object certainly triggers the obstacle
hit of the loop body (stated on the pre-advance depth). -/
def sureHit (p : Player) (sp : ℚ) (obj : GameObject) : Prop :=
  obj.active = true ∧ zOverlapAt (obj.z - sp) obj.type
    ∧ |p.lane - (obj.lane : ℚ)| < 6/10 ∧ hitTest p obj.type = true

/-- The conditions under which the loop body leaves an object untouched
apart from the depth advance: no collision, or a survivable obstacle. -/
def objNeutral (p : Player) (sp : ℚ) (obj : GameObject) : Prop :=
  ¬(obj.active = true ∧ zOverlapAt (obj.z - sp) obj.type
      ∧ |p.lane - (obj.lane : ℚ)| < 6/10)
  ∨ (obj.type ≠ ObjType.COIN ∧ hitTest p obj.type = false)

theorem objStep_sureHit (p : Player) (sp : ℚ) (sc : ℤ) (dist : ℚ) (coins : ℕ)
    (obj : GameObject) (h : sureHit p sp obj) :
    objStep p sp sc dist coins obj =
      { obj := moveObj sp obj, coins := coins
        events := [GEvent.gameOver sc coins ⌊dist⌋ 0], hit := true } := by
  obtain ⟨ha, hov, hl, ht⟩ := h
  have hcoin : obj.type ≠ ObjType.COIN := by
    intro hc
    rw [hc] at ht
    exact Bool.false_ne_true ht
  unfold objStep
  rw [if_pos (show (moveObj sp obj).active = true
        ∧ zOverlapAt (moveObj sp obj).z (moveObj sp obj).type
        ∧ laneClose p (moveObj sp obj) from ⟨ha, hov, hl⟩),
    if_neg (show ¬(moveObj sp obj).type = ObjType.COIN from hcoin),
    if_pos (show hitTest p (moveObj sp obj).type = true from ht)]

theorem objStep_neutral (p : Player) (sp : ℚ) (sc : ℤ) (dist : ℚ) (coins : ℕ)
    (obj : GameObject) (h : objNeutral p sp obj) :
    objStep p sp sc dist coins obj =
      { obj := moveObj sp obj, coins := coins, events := [], hit := false } := by
  unfold objStep
  rcases h with h | ⟨hcoin, hmiss⟩
  · rw [if_neg (show ¬((moveObj sp obj).active = true
        ∧ zOverlapAt (moveObj sp obj).z (moveObj sp obj).type
        ∧ laneClose p (moveObj sp obj)) from h)]
  · by_cases hcond : (moveObj sp obj).active = true
        ∧ zOverlapAt (moveObj sp obj).z (moveObj sp obj).type
        ∧ laneClose p (moveObj sp obj)
    · rw [if_pos hcond,
        if_neg (show ¬(moveObj sp obj).type = ObjType.COIN from hcoin),
        if_neg (show ¬hitTest p (moveObj sp obj).type = true from by
          rw [show (moveObj sp obj).type = obj.type from rfl, hmiss]
          exact Bool.false_ne_true)]
    · rw [if_neg hcond]

theorem objStep_hit_shape (p : Player) (sp : ℚ) (sc : ℤ) (dist : ℚ) (coins : ℕ)
    (obj : GameObject) (hh : (objStep p sp sc dist coins obj).hit = true) :
    (objStep p sp sc dist coins obj).events = [GEvent.gameOver sc coins ⌊dist⌋ 0]
      ∧ (objStep p sp sc dist coins obj).coins = coins := by
  unfold objStep at hh ⊢
  split_ifs at hh ⊢ <;> simp_all

theorem objStep_nohit_count (p : Player) (sp : ℚ) (sc : ℤ) (dist : ℚ) (coins : ℕ)
    (obj : GameObject) (hh : (objStep p sp sc dist coins obj).hit = false) :
    countGameOver (objStep p sp sc dist coins obj).events = 0 := by
  unfold objStep at hh ⊢
  split_ifs at hh ⊢ <;> simp_all [countGameOver]

theorem processObjects_count (p : Player) (sp : ℚ) (sc : ℤ) (dist : ℚ) :
    ∀ (objs : List GameObject) (coins : ℕ),
      countGameOver (processObjects p sp sc dist objs coins).events
        = if (processObjects p sp sc dist objs coins).over then 1 else 0 := by
  intro objs
  induction objs with
  | nil => intro coins; simp [processObjects, countGameOver]
  | cons obj rest ih =>
    intro coins
    simp only [processObjects]
    by_cases hh : (objStep p sp sc dist coins obj).hit = true
    · rw [(objStep_hit_shape p sp sc dist coins obj hh).1]
      simp [hh, countGameOver]
    · rw [Bool.not_eq_true] at hh
      simp only [hh, Bool.false_eq_true, if_false]
      rw [countGameOver_append, objStep_nohit_count p sp sc dist coins obj hh,
        ih ((objStep p sp sc dist coins obj).coins)]
      simp

theorem processObjects_over_of_sureHit (p : Player) (sp : ℚ) (sc : ℤ) (dist : ℚ)
    (obj : GameObject) (hobj : sureHit p sp obj) :
    ∀ (objs : List GameObject) (coins : ℕ), obj ∈ objs →
      (processObjects p sp sc dist objs coins).over = true := by
  intro objs
  induction objs with
  | nil => intro coins hm; cases hm
  | cons a rest ih =>
    intro coins hm
    simp only [processObjects]
    by_cases hh : (objStep p sp sc dist coins a).hit = true
    · simp [hh]
    · rcases List.mem_cons.mp hm with rfl | hmem
      · rw [objStep_sureHit p sp sc dist coins obj hobj] at hh
        exact absurd rfl hh
      · rw [Bool.not_eq_true] at hh
        simp only [hh, Bool.false_eq_true, if_false]
        exact ih ((objStep p sp sc dist coins a).coins) hmem

theorem processObjects_cons_hit (p : Player) (sp : ℚ) (sc : ℤ) (dist : ℚ)
    (coins : ℕ) (obj : GameObject) (rest : List GameObject)
    (hh : (objStep p sp sc dist coins obj).hit = true) :
    processObjects p sp sc dist (obj :: rest) coins =
      { objs := (objStep p sp sc dist coins obj).obj :: rest
        coins := (objStep p sp sc dist coins obj).coins
        events := (objStep p sp sc dist coins obj).events
        over := true } := by
  simp only [processObjects, hh, if_true]

/-- The cull applied to a list of objects none of which collides. -/
def moveCullList (sp : ℚ) : List GameObject → List GameObject :=
  List.filterMap fun o =>
    if (moveObj sp o).z + objDepth (moveObj sp o).type > -500 then some (moveObj sp o)
    else none

theorem processObjects_neutral (p : Player) (sp : ℚ) (sc : ℤ) (dist : ℚ) :
    ∀ (objs : List GameObject), (∀ o ∈ objs, objNeutral p sp o) →
      ∀ coins, processObjects p sp sc dist objs coins =
        { objs := moveCullList sp objs, coins := coins, events := [], over := false } := by
  intro objs
  induction objs with
  | nil => intro _ coins; simp [processObjects, moveCullList]
  | cons obj rest ih =>
    intro hall coins
    have hobj := objStep_neutral p sp sc dist coins obj (hall obj (List.mem_cons_self obj rest))
    have hrest := ih (fun o ho => hall o (List.mem_cons_of_mem obj ho)) coins
    simp only [processObjects, hobj, hrest]
    simp only [moveCullList, List.filterMap_cons]
    by_cases hk : (moveObj sp obj).z + objDepth (moveObj sp obj).type > -500
    · simp [hk, moveCullList]
    · simp [hk, moveCullList]

theorem spawnObject_split (r : SpawnRand) (objs : List GameObject) :
    ∃ tl, spawnObject r objs = objs ++ tl
      ∧ ∀ o ∈ tl, 3000 ≤ o.z ∧ o.lane = spawnLane r ∧ o.active = true := by
  simp only [spawnObject]
  split_ifs with h1 h2
  · exact ⟨[], by simp, by simp⟩
  · refine ⟨_, rfl, ?_⟩
    intro o ho
    simp only [List.mem_map, List.mem_range] at ho
    obtain ⟨i, _, rfl⟩ := ho
    refine ⟨?_, rfl, rfl⟩
    have : (0 : ℚ) ≤ (i : ℚ) * 150 := by positivity
    simp only
    linarith
  · refine ⟨_, rfl, ?_⟩
    intro o ho
    simp only [List.mem_singleton] at ho
    subst ho
    exact ⟨by norm_num, rfl, rfl⟩

theorem updObjs_split (r : SpawnRand) (s : EngineState) :
    ∃ tl, updObjs r s = s.objects ++ tl
      ∧ ∀ o ∈ tl, 3000 ≤ o.z ∧ o.lane = spawnLane r ∧ o.active = true := by
  unfold updObjs
  split_ifs with h
  · exact spawnObject_split r s.objects
  · exact ⟨[], by simp, by simp⟩

/-- A freshly spawned object is too far out to overlap the player in the
same frame. -/
theorem objNeutral_far (p : Player) (sp : ℚ) (obj : GameObject)
    (hz : 3000 ≤ obj.z) (hsp : sp ≤ GAME_SPEED_MAX) : objNeutral p sp obj := by
  left
  intro hcon
  have h50 : (50 : ℚ) > obj.z - sp := hcon.2.1.2
  unfold GAME_SPEED_MAX at hsp
  linarith

/-! ## C1: BARRIER_HIGH collisions and the rolling escape -/

/-- The player of the C1 counterexample: rolling at the center lane. -/
def cexPlayer : Player :=
  { lane := 0, targetLane := Lane.CENTER, y := 0, dy := 0
    isJumping := false, isRolling := true, rollTimer := 35 }

/-- A train right on top of the player. -/
def cexTrain : GameObject :=
  { id := 0, lane := 0, z := 0, type := ObjType.TRAIN, active := true }

/-- A high barrier also overlapping the player. -/
def cexBarrier : GameObject :=
  { id := 1, lane := 0, z := 0, type := ObjType.BARRIER_HIGH, active := true }

/-- The C1 counterexample state: the rolling player faces both a train and
a high barrier in the same frame. -/
def cexState : EngineState :=
  { gameState := GameState.PLAYING, player := cexPlayer
    objects := [cexTrain, cexBarrier], speed := 20, score := 0, coins := 0
    distance := 0, frameCount := 0 }

theorem speedStep_twenty : speedStep 20 = 4003/200 := by
  norm_num [speedStep, GAME_SPEED_MAX, min_def]

theorem stepPlayer_cexPlayer :
    stepPlayer cexPlayer = { cexPlayer with rollTimer := 34 } := by
  unfold stepPlayer laneStep verticalStep rollStep laneApproach cexPlayer
  norm_num [LANE_SPEED, Lane.CENTER]

/-- **C1 counterexample.** In the counterexample state the claim
hypotheses hold of the high barrier — the Simulation Step is in the
playing state, the barrier is live, its advanced depth interval overlaps
the player interval, the lane-proximity check passes, and the player is
rolling — yet the step does emit a game-over signal (the overlapping train
hits regardless of the roll), refuting the claim that no game-over signal
is emitted in this situation. -/
theorem C1_counterexample :
    cexState.gameState = GameState.PLAYING
    ∧ cexBarrier ∈ cexState.objects
    ∧ cexBarrier.type = ObjType.BARRIER_HIGH
    ∧ cexBarrier.active = true
    ∧ zOverlapAt (cexBarrier.z - speedStep cexState.speed) cexBarrier.type
    ∧ |(stepPlayer cexState.player).lane - (cexBarrier.lane : ℚ)| < 6/10
    ∧ (stepPlayer cexState.player).isRolling = true
    ∧ countGameOver (update oracle0 cexState).2 = 1 := by
  have hsp : speedStep cexState.speed = 4003/200 := speedStep_twenty
  have hplayer : cexState.player = cexPlayer := rfl
  refine ⟨rfl, by simp [cexState], rfl, rfl, ?_, ?_, ?_, ?_⟩
  · rw [show cexBarrier.z = 0 from rfl, hsp]
    norm_num [zOverlapAt, objDepth, cexBarrier]
  · rw [hplayer, stepPlayer_cexPlayer]
    norm_num [cexPlayer, cexBarrier]
  · rw [hplayer, stepPlayer_cexPlayer]
    rfl
  · have htrain : sureHit (stepPlayer cexState.player) (speedStep cexState.speed) cexTrain := by
      rw [hplayer]
      refine ⟨rfl, ?_, ?_, ?_⟩
      · rw [show cexTrain.z = 0 from rfl, hsp]
        norm_num [zOverlapAt, objDepth, cexTrain]
      · rw [stepPlayer_cexPlayer]
        norm_num [cexPlayer, cexTrain]
      · rw [stepPlayer_cexPlayer]
        norm_num [hitTest, cexTrain, cexPlayer]
    have hrate : spawnRate (speedStep cexState.speed) = 44 := by
      rw [hsp]
      unfold spawnRate
      rw [show ⌊(4003 : ℚ)/200 * (8/10)⌋ = 16 from by norm_num]
      rfl
    have hcond : ¬((cexState.frameCount + 1) % spawnRate (speedStep cexState.speed) = 0) := by
      rw [hrate]
      decide
    have hobjs : updObjs oracle0 cexState = [cexTrain, cexBarrier] := by
      unfold updObjs
      rw [if_neg hcond]
      rfl
    rw [update_eq_playing oracle0 cexState rfl]
    unfold updRes
    rw [hobjs,
      processObjects_cons_hit _ _ _ _ _ _ _
        (by rw [objStep_sureHit _ _ _ _ _ _ htrain]),
      objStep_sureHit _ _ _ _ _ _ htrain]
    rfl

/-- **C1 (amended).** For a playing-state Simulation Step and a live
BARRIER_HIGH object whose advanced depth interval overlaps the player
interval and whose lane-proximity check passes (checks taken, as in the
step, on the advanced depth and the post-physics player): when the
post-physics player is rolling, the barrier itself causes no hit — and if
it is the only live object, no game-over signal is emitted and the step
continues in the playing state; when the player is not rolling, exactly
one game-over signal is emitted that step, and in the single-object
scenario the emitted events are exactly the score signal followed by the
game-over signal carrying the current score, the pre-collision coin count,
and the current distance, with the coin counter unchanged and nothing
further processed. -/
theorem C1_barrier_high (r : SpawnRand) (s : EngineState) (obj : GameObject)
    (hgs : s.gameState = GameState.PLAYING)
    (htype : obj.type = ObjType.BARRIER_HIGH)
    (hact : obj.active = true)
    (hov : zOverlapAt (obj.z - speedStep s.speed) obj.type)
    (hlane : |(stepPlayer s.player).lane - (obj.lane : ℚ)| < 6/10) :
    ((stepPlayer s.player).isRolling = true → s.objects = [obj] →
      countGameOver (update r s).2 = 0
        ∧ (update r s).1.gameState = GameState.PLAYING)
    ∧ ((stepPlayer s.player).isRolling = false → obj ∈ s.objects →
      countGameOver (update r s).2 = 1)
    ∧ ((stepPlayer s.player).isRolling = false → s.objects = [obj] →
      (update r s).2 =
        [GEvent.scoreUpdate (s.score + ⌊speedStep s.speed / 10⌋),
         GEvent.gameOver (s.score + ⌊speedStep s.speed / 10⌋) s.coins
           ⌊s.distance + speedStep s.speed / 10⌋ 0]
        ∧ (update r s).1.coins = s.coins) := by
  obtain ⟨tl, htl, htlp⟩ := updObjs_split r s
  refine ⟨fun hroll hobjs => ?_, fun hroll hmem => ?_, fun hroll hobjs => ?_⟩
  · -- rolling, single object: every object is neutral, the loop is quiet
    have hneutral : ∀ o ∈ updObjs r s, objNeutral (stepPlayer s.player) (speedStep s.speed) o := by
      intro o ho
      rw [htl, hobjs] at ho
      rcases List.mem_append.mp ho with ho | ho
      · rw [List.mem_singleton] at ho
        subst ho
        right
        refine ⟨(by rw [htype]; decide), ?_⟩
        rw [htype]
        unfold hitTest
        rw [hroll]
        rfl
      · exact objNeutral_far _ _ _ (htlp o ho).1 (speedStep_le_max s.speed)
    have hres : updRes r s =
        { objs := moveCullList (speedStep s.speed) (updObjs r s), coins := s.coins
          events := [], over := false } := by
      unfold updRes
      exact processObjects_neutral _ _ _ _ _ hneutral s.coins
    rw [update_eq_playing r s hgs]
    rw [hres]
    exact ⟨rfl, rfl⟩
  · -- not rolling: the barrier (or an earlier object) fires exactly once
    have hsure : sureHit (stepPlayer s.player) (speedStep s.speed) obj := by
      refine ⟨hact, hov, hlane, ?_⟩
      rw [htype]
      unfold hitTest
      rw [hroll]
      rfl
    have hmem2 : obj ∈ updObjs r s := by
      rw [htl]
      exact List.mem_append_left tl hmem
    rw [update_eq_playing r s hgs]
    have hover : (updRes r s).over = true :=
      processObjects_over_of_sureHit _ _ _ _ obj hsure _ s.coins hmem2
    have hcount := processObjects_count (stepPlayer s.player) (speedStep s.speed)
      (s.score + ⌊speedStep s.speed / 10⌋) (s.distance + speedStep s.speed / 10)
      (updObjs r s) s.coins
    rw [show processObjects (stepPlayer s.player) (speedStep s.speed)
        (s.score + ⌊speedStep s.speed / 10⌋) (s.distance + speedStep s.speed / 10)
        (updObjs r s) s.coins = updRes r s from rfl] at hcount
    rw [hover, if_pos rfl] at hcount
    show countGameOver (GEvent.scoreUpdate _ :: (updRes r s).events) = 1
    rw [show ∀ e es, countGameOver (e :: es) = countGameOver [e] + countGameOver es from
      fun e es => by rw [← countGameOver_append]; rfl]
    rw [hcount]
    rfl
  · -- not rolling, single object: the barrier is processed first and hits
    have hsure : sureHit (stepPlayer s.player) (speedStep s.speed) obj := by
      refine ⟨hact, hov, hlane, ?_⟩
      rw [htype]
      unfold hitTest
      rw [hroll]
      rfl
    rw [update_eq_playing r s hgs]
    have hres : updRes r s =
        { objs := moveObj (speedStep s.speed) obj :: tl, coins := s.coins
          events := [GEvent.gameOver (s.score + ⌊speedStep s.speed / 10⌋) s.coins
            ⌊s.distance + speedStep s.speed / 10⌋ 0]
          over := true } := by
      unfold updRes
      rw [htl, hobjs]
      rw [show ([obj] ++ tl) = obj :: tl from rfl]
      rw [processObjects_cons_hit _ _ _ _ _ _ _
        (by rw [objStep_sureHit _ _ _ _ _ _ hsure]),
        objStep_sureHit _ _ _ _ _ _ hsure]
    rw [hres]
    exact ⟨rfl, rfl⟩

/-- Witness for the amended C1, exercising the not-rolling single-object
branch at a concrete state: the signal list and the untouched coin
counter come out exactly as stated. -/
theorem C1_witness :
    (update oracle0
        { gameState := GameState.PLAYING
          player := { cexPlayer with isRolling := false, rollTimer := 0 }
          objects := [cexBarrier], speed := 20, score := 0, coins := 7
          distance := 0, frameCount := 0 }).2 =
      [GEvent.scoreUpdate (0 + ⌊speedStep 20 / 10⌋),
       GEvent.gameOver (0 + ⌊speedStep 20 / 10⌋) 7 ⌊0 + speedStep 20 / 10⌋ 0]
    ∧ (update oracle0
        { gameState := GameState.PLAYING
          player := { cexPlayer with isRolling := false, rollTimer := 0 }
          objects := [cexBarrier], speed := 20, score := 0, coins := 7
          distance := 0, frameCount := 0 }).1.coins = 7 :=
  (C1_barrier_high oracle0 _ cexBarrier rfl rfl rfl
      (by rw [show cexBarrier.z = 0 from rfl, speedStep_twenty]
          norm_num [zOverlapAt, objDepth, cexBarrier])
      (by norm_num [stepPlayer, laneStep, verticalStep, rollStep, laneApproach,
            LANE_SPEED, cexPlayer, Lane.CENTER, cexBarrier])).2.2
    (by norm_num [stepPlayer, laneStep, verticalStep, rollStep, laneApproach,
          LANE_SPEED, cexPlayer, Lane.CENTER])
    rfl

/-! ## C5: the five-coin line is collected in order -/

/-- Spawn oracle for the C5 scenario runs: every cadenced spawn attempt
picks the right lane (`laneR = 5/6 ↦ index 2`) and an obstacle
(`typeR = 1`, `obsR = 0 ↦ TRAIN`), so nothing it produces can ever meet
the center-lane player or add coins. -/
def oracleObs : SpawnRand := { laneR := 5/6, typeR := 1, obsR := 0, ids := fun _ => 0 }

/-- Spawn oracle that produces the center-lane coin line
(`laneR = 1/3 ↦ index 1 = CENTER`, `typeR = 0 ↦ COIN`). -/
def oracleCoins : SpawnRand := { laneR := 1/3, typeR := 0, obsR := 0, ids := fun _ => 0 }

/-- Depth of the `i`-th coin of a spawned line: `3000 + i * 150`. -/
def coinZ (i : ℕ) : ℚ := 3000 + (i : ℚ) * 150

/-- A center-lane coin at depth `z` whose `active` flag reflects whether its
collection window (`z < 50` after some advance) has not yet been crossed:
the shape every coin of the C5 scenario keeps throughout the run. -/
def coinObj (z : ℚ) : GameObject :=
  { id := 0, lane := 0, z := z, type := ObjType.COIN, active := decide (50 ≤ z) }

/-- A coin at pre-advance depth `z` is collected this frame: it is still
active (`50 ≤ z`) and its advanced depth enters the window (`z - sp < 50`). -/
def crossP (sp z : ℚ) : Prop := 50 ≤ z ∧ z - sp < 50

instance (sp z : ℚ) : Decidable (crossP sp z) := by
  unfold crossP; infer_instance

/-- The coins-changed signals the loop emits while walking a coin line at
pre-advance depths `zs` with counter `coins`. -/
def buildEvents (sp : ℚ) : ℕ → List ℚ → List GEvent
  | _, [] => []
  | coins, z :: zs =>
    if crossP sp z then GEvent.coinsUpdate (coins + 1) :: buildEvents sp (coins + 1) zs
    else buildEvents sp coins zs

theorem buildEvents_cons (sp : ℚ) (coins : ℕ) (z : ℚ) (zs : List ℚ) :
    buildEvents sp coins (z :: zs) =
      if crossP sp z then GEvent.coinsUpdate (coins + 1) :: buildEvents sp (coins + 1) zs
      else buildEvents sp coins zs := rfl

theorem spawnLane_oracleObs : spawnLane oracleObs = 1 := by
  norm_num [spawnLane, oracleObs, Lane.LEFT, Lane.CENTER, Lane.RIGHT]
  decide

theorem spawnLane_oracleCoins : spawnLane oracleCoins = 0 := by
  norm_num [spawnLane, oracleCoins, Lane.LEFT, Lane.CENTER, Lane.RIGHT]

/-- The pickup spawn places exactly the five-coin line of the C5 scenario:
five active coins in the chosen (center) lane at depths `3000 + i * 150`. -/
theorem spawnObject_coinLine :
    spawnObject oracleCoins [] = (List.range 5).map fun i => coinObj (coinZ i) := by
  simp only [spawnObject]
  rw [if_neg (by simp), if_pos (by norm_num [spawnType, oracleCoins])]
  rw [List.nil_append]
  apply List.map_congr_left
  intro i hi
  unfold coinObj coinZ
  rw [spawnLane_oracleCoins]
  have hz : (50 : ℚ) ≤ 3000 + (i : ℚ) * 150 := by
    have : (0 : ℚ) ≤ (i : ℚ) * 150 := by positivity
    linarith
  simp [oracleCoins, hz, mul_comm]

theorem objStep_coinObj (p : Player) (hp : p.lane = 0) (sp : ℚ)
    (h0 : 0 < sp) (h60 : sp ≤ 60) (sc : ℤ) (dist : ℚ) (coins : ℕ) (z : ℚ) :
    objStep p sp sc dist coins (coinObj z) =
      if crossP sp z then
        { obj := coinObj (z - sp), coins := coins + 1
          events := [GEvent.coinsUpdate (coins + 1)], hit := false }
      else
        { obj := coinObj (z - sp), coins := coins, events := [], hit := false } := by
  by_cases hz : 50 ≤ z
  · by_cases hc : z - sp < 50
    · -- collected this frame
      rw [if_pos ⟨hz, hc⟩]
      unfold objStep
      rw [if_pos (show (moveObj sp (coinObj z)).active = true
            ∧ zOverlapAt (moveObj sp (coinObj z)).z (moveObj sp (coinObj z)).type
            ∧ laneClose p (moveObj sp (coinObj z)) from ?_),
        if_pos (show (moveObj sp (coinObj z)).type = ObjType.COIN from rfl)]
      · have hact : decide ((50 : ℚ) ≤ z - sp) = false := by
          rw [decide_eq_false_iff_not]
          linarith
        have hobj : ({ moveObj sp (coinObj z) with active := false } : GameObject)
            = coinObj (z - sp) := by
          unfold moveObj coinObj
          simp [hact]
        rw [hobj]
      · refine ⟨?_, ?_, ?_⟩
        · show decide ((50 : ℚ) ≤ z) = true
          exact decide_eq_true hz
        · show (-50 : ℚ) < (z - sp) + objDepth ObjType.COIN ∧ (50 : ℚ) > z - sp
          rw [show objDepth ObjType.COIN = 50 from rfl]
          exact ⟨by linarith, hc⟩
        · show |p.lane - ((0 : ℤ) : ℚ)| < 6/10
          rw [hp]
          norm_num
    · -- still ahead of the window
      rw [if_neg (fun hcr => hc hcr.2)]
      unfold objStep
      rw [if_neg]
      · have hact : decide ((50 : ℚ) ≤ z - sp) = true := by
          rw [decide_eq_true_eq]
          linarith
        have hobj : moveObj sp (coinObj z) = coinObj (z - sp) := by
          unfold moveObj coinObj
          simp [hact, decide_eq_true hz]
        rw [hobj]
      · intro hcon
        have h50 : (50 : ℚ) > z - sp := hcon.2.1.2
        exact hc h50
  · -- already inactive
    rw [if_neg (fun hcr => hz hcr.1)]
    unfold objStep
    rw [if_neg]
    · have hact1 : decide ((50 : ℚ) ≤ z) = false := by
        rw [decide_eq_false_iff_not]; exact hz
      have hact2 : decide ((50 : ℚ) ≤ z - sp) = false := by
        rw [decide_eq_false_iff_not]
        intro hcon
        exact hz (by linarith)
      have hobj : moveObj sp (coinObj z) = coinObj (z - sp) := by
        unfold moveObj coinObj
        simp [hact1, hact2]
      rw [hobj]
    · intro hcon
      have hax := hcon.1
      rw [show (moveObj sp (coinObj z)).active = decide ((50 : ℚ) ≤ z) from rfl] at hax
      rw [decide_eq_true_eq] at hax
      exact hz hax

theorem processObjects_coinList (p : Player) (hp : p.lane = 0) (sp : ℚ)
    (h0 : 0 < sp) (h60 : sp ≤ 60) (sc : ℤ) (dist : ℚ) :
    ∀ (zs : List ℚ) (coins : ℕ),
      processObjects p sp sc dist (zs.map coinObj) coins =
        { objs := (((zs.map fun z => z - sp).filter
              fun z => decide (z + 50 > -500)).map coinObj)
          coins := coins + zs.countP fun z => decide (crossP sp z)
          events := buildEvents sp coins zs
          over := false } := by
  intro zs
  induction zs with
  | nil => intro coins; simp [processObjects, buildEvents]
  | cons z zs ih =>
    intro coins
    rw [List.map_cons]
    simp only [processObjects]
    rw [objStep_coinObj p hp sp h0 h60 sc dist coins z]
    by_cases hcr : crossP sp z
    · rw [if_pos hcr, ih (coins + 1)]
      have hkeepP : (z - sp) + 50 > -500 := by
        have := hcr.1
        linarith
      rw [buildEvents_cons, if_pos hcr]
      rw [List.map_cons, List.filter_cons]
      simp only [decide_eq_true hkeepP, if_true, List.map_cons, List.countP_cons,
        decide_eq_true hcr, Bool.false_eq_true, if_false, List.singleton_append,
        LoopRes.mk.injEq]
      refine ⟨?_, by omega, trivial, trivial⟩
      rw [show (coinObj (z - sp)).z + objDepth (coinObj (z - sp)).type
          = (z - sp) + 50 from rfl, if_pos hkeepP]
    · rw [if_neg hcr, ih coins]
      rw [buildEvents_cons, if_neg hcr]
      have hdec : decide (crossP sp z) = false := by
        rw [decide_eq_false_iff_not]; exact hcr
      rw [List.map_cons, List.filter_cons]
      simp only [hdec, Bool.false_eq_true, if_false, List.countP_cons,
        List.nil_append, LoopRes.mk.injEq]
      refine ⟨?_, by omega, trivial, trivial⟩
      rw [show (coinObj (z - sp)).z + objDepth (coinObj (z - sp)).type
          = (z - sp) + 50 from rfl]
      by_cases hk : (z - sp) + 50 > -500
      · rw [if_pos hk]
        have hkb : decide ((z - sp) + 50 > -500) = true := decide_eq_true hk
        simp only [hkb, if_true, List.map_cons]
      · rw [if_neg hk]
        have hkb : decide ((z - sp) + 50 > -500) = false := by
          rw [decide_eq_false_iff_not]; exact hk
        simp only [hkb, Bool.false_eq_true, if_false]

theorem processObjects_append_quiet (p : Player) (sp : ℚ) (sc : ℤ) (dist : ℚ) :
    ∀ (xs ys : List GameObject) (coins : ℕ),
      (processObjects p sp sc dist xs coins).over = false →
      (processObjects p sp sc dist ys
          (processObjects p sp sc dist xs coins).coins).over = false →
      processObjects p sp sc dist (xs ++ ys) coins =
        { objs := (processObjects p sp sc dist xs coins).objs
            ++ (processObjects p sp sc dist ys
                  (processObjects p sp sc dist xs coins).coins).objs
          coins := (processObjects p sp sc dist ys
              (processObjects p sp sc dist xs coins).coins).coins
          events := (processObjects p sp sc dist xs coins).events
            ++ (processObjects p sp sc dist ys
                  (processObjects p sp sc dist xs coins).coins).events
          over := false } := by
  intro xs
  induction xs with
  | nil =>
    intro ys coins _ hys
    simp only [processObjects, List.nil_append]
    rw [← hys]
    rfl
  | cons x xs ih =>
    intro ys coins hover hys
    by_cases hh : (objStep p sp sc dist coins x).hit = true
    · rw [processObjects_cons_hit p sp sc dist coins x xs hh] at hover
      exact absurd hover (by simp)
    · rw [Bool.not_eq_true] at hh
      have hover2 : (processObjects p sp sc dist xs
          (objStep p sp sc dist coins x).coins).over = false := by
        simpa only [processObjects, hh, Bool.false_eq_true, if_false] using hover
      have hys2 : (processObjects p sp sc dist ys
          (processObjects p sp sc dist xs
            (objStep p sp sc dist coins x).coins).coins).over = false := by
        simpa only [processObjects, hh, Bool.false_eq_true, if_false] using hys
      rw [List.cons_append]
      simp only [processObjects, hh, Bool.false_eq_true, if_false]
      rw [ih ys (objStep p sp sc dist coins x).coins hover2 hys2]
      simp only [hover2, hys2, Bool.false_eq_true, if_false]
      by_cases hk : (objStep p sp sc dist coins x).obj.z
          + objDepth (objStep p sp sc dist coins x).obj.type > -500
      · simp only [hk, if_true, LoopRes.mk.injEq, List.cons_append,
          List.append_assoc]
      · simp only [hk, if_false, LoopRes.mk.injEq, List.cons_append,
          List.append_assoc]

/-- The five spawn depths of the coin line. -/
def baseZ : List ℚ := (List.range 5).map coinZ

/-- The pre-advance depths of the coins still in the live set after the
world has moved by `d`: shifted by `d` and culled at `z + 50 ≤ -500`. -/
def liveCoinZs (d : ℚ) : List ℚ :=
  (baseZ.map fun z => z - d).filter fun z => decide (z + 50 > -500)

/-- How many of the five coins have been collected once the world has
moved by `d`: those whose depth has dropped below the window edge 50. -/
def collected (d : ℚ) : ℕ :=
  (List.range 5).countP fun i => decide (coinZ i - d < 50)

theorem countP_split {α : Type} (pA pB : α → Bool) :
    ∀ l : List α, (∀ a ∈ l, pA a = true → pB a = true) →
      l.countP pA + l.countP (fun a => pB a && !pA a) = l.countP pB := by
  intro l
  induction l with
  | nil => intro _; rfl
  | cons a l ih =>
    intro h
    have hrest := ih fun b hb => h b (List.mem_cons_of_mem a hb)
    rw [List.countP_cons, List.countP_cons, List.countP_cons]
    by_cases ha : pA a = true
    · have hb := h a (List.mem_cons_self a l) ha
      rw [ha, hb]
      simp only [Bool.not_true, Bool.and_false, Bool.false_eq_true, if_false,
        if_true]
      omega
    · rw [Bool.not_eq_true] at ha
      rw [ha]
      simp only [Bool.not_false, Bool.and_true, Bool.false_eq_true, if_false]
      by_cases hb : pB a = true
      · rw [hb]
        simp only [if_true]
        omega
      · rw [Bool.not_eq_true] at hb
        rw [hb]
        simp only [Bool.false_eq_true, if_false]
        omega

theorem coinEvents_buildEvents (sp : ℚ) :
    ∀ (zs : List ℚ) (coins : ℕ),
      coinEvents (buildEvents sp coins zs)
        = (List.range (zs.countP fun z => decide (crossP sp z))).map
            fun j => coins + j + 1 := by
  intro zs
  induction zs with
  | nil => intro coins; rfl
  | cons z zs ih =>
    intro coins
    rw [buildEvents_cons, List.countP_cons]
    by_cases hcr : crossP sp z
    · rw [if_pos hcr]
      simp only [decide_eq_true hcr, if_true]
      rw [show coinEvents (GEvent.coinsUpdate (coins + 1) :: buildEvents sp (coins + 1) zs)
          = (coins + 1) :: coinEvents (buildEvents sp (coins + 1) zs) from rfl]
      rw [ih (coins + 1)]
      rw [List.range_succ_eq_map, List.map_cons, List.map_map]
      rw [List.cons.injEq]
      refine ⟨by simp, ?_⟩
      apply List.map_congr_left
      intro j _
      simp only [Function.comp_apply]
      omega
    · rw [if_neg hcr]
      have hdec : decide (crossP sp z) = false := by
        rw [decide_eq_false_iff_not]; exact hcr
      simp only [hdec, Bool.false_eq_true, if_false]
      exact ih coins

theorem filter_map_filter_sub (sp : ℚ) (h0 : 0 < sp) :
    ∀ l : List ℚ,
      (((l.filter fun z => decide (z + 50 > -500)).map fun z => z - sp).filter
          fun z => decide (z + 50 > -500))
        = ((l.map fun z => z - sp).filter fun z => decide (z + 50 > -500)) := by
  intro l
  induction l with
  | nil => rfl
  | cons a l ih =>
    rw [List.filter_cons, List.map_cons, List.filter_cons]
    by_cases hk : a + 50 > -500
    · simp only [decide_eq_true hk, if_true, List.map_cons, List.filter_cons, ih]
    · have hk2 : ¬(a - sp + 50 > -500) := by
        intro hcon
        exact hk (by linarith)
      have hd1 : decide (a + 50 > -500) = false := by
        rw [decide_eq_false_iff_not]; exact hk
      have hd2 : decide (a - sp + 50 > -500) = false := by
        rw [decide_eq_false_iff_not]; exact hk2
      simp only [hd1, hd2, Bool.false_eq_true, if_false, ih]

theorem liveCoinZs_step (sp : ℚ) (h0 : 0 < sp) (d : ℚ) :
    ((liveCoinZs d).map fun z => z - sp).filter (fun z => decide (z + 50 > -500))
      = liveCoinZs (d + sp) := by
  unfold liveCoinZs
  rw [filter_map_filter_sub sp h0, List.map_map]
  congr 1
  apply List.map_congr_left
  intro z _
  simp only [Function.comp]
  ring

theorem collected_step (sp : ℚ) (h0 : 0 < sp) (h60 : sp ≤ 60) (d : ℚ) :
    collected d + ((liveCoinZs d).countP fun z => decide (crossP sp z))
      = collected (d + sp) := by
  have hstep1 : ((liveCoinZs d).countP fun z => decide (crossP sp z))
      = ((baseZ.map fun z => z - d).countP fun z => decide (crossP sp z)) := by
    unfold liveCoinZs
    rw [List.countP_filter]
    apply List.countP_congr
    intro z _
    by_cases hc : crossP sp z
    · have hk : z + 50 > -500 := by
        have := hc.1
        linarith
      simp [hc, hk]
    · simp [hc]
  have hA : ((baseZ.map fun z => z - d).countP fun z => decide (crossP sp z))
      = ((List.range 5).countP
          fun i => decide (coinZ i - (d + sp) < 50) && !decide (coinZ i - d < 50)) := by
    unfold baseZ
    rw [List.map_map, List.countP_map]
    apply List.countP_congr
    intro i _
    simp only [Function.comp_apply]
    rw [decide_eq_true_eq, Bool.and_eq_true, Bool.not_eq_true', decide_eq_true_eq,
      decide_eq_false_iff_not]
    unfold crossP
    constructor
    · rintro ⟨h1, h2⟩
      exact ⟨by linarith, not_lt.mpr h1⟩
    · rintro ⟨h1, h2⟩
      exact ⟨not_lt.mp h2, by linarith⟩
  rw [hstep1, hA]
  unfold collected
  exact countP_split (fun i => decide (coinZ i - d < 50))
    (fun i => decide (coinZ i - (d + sp) < 50)) (List.range 5)
    (fun i _ h => by
      rw [decide_eq_true_eq] at h
      exact decide_eq_true (by linarith))

theorem stepPlayer_initialPlayer : stepPlayer initialPlayer = initialPlayer := by
  unfold stepPlayer laneStep verticalStep rollStep initialPlayer laneApproach
  norm_num [LANE_SPEED, Lane.CENTER]

theorem objNeutral_lane1 (p : Player) (hp : p.lane = 0) (sp : ℚ)
    (o : GameObject) (h1 : o.lane = 1) : objNeutral p sp o := by
  left
  intro hcon
  have habs := hcon.2.2
  rw [hp, h1] at habs
  norm_num at habs

theorem moveCullList_lane (sp : ℚ) (l : List GameObject)
    (h : ∀ o ∈ l, o.lane = 1) : ∀ o2 ∈ moveCullList sp l, o2.lane = 1 := by
  intro o2 ho2
  unfold moveCullList at ho2
  rw [List.mem_filterMap] at ho2
  obtain ⟨o, ho, heq⟩ := ho2
  split_ifs at heq with hk
  rw [Option.some.injEq] at heq
  subst heq
  exact h o ho

/-- The run invariant of the five-coin scenario after the world has moved
by `d`: still playing, the player parked at the center lane, the speed in
range, the coin counter advanced by the collected count, and the object
set made of the surviving coins (active exactly while still ahead of the
window) followed by right-lane obstacles only. -/
def InvC5 (c0 : ℕ) (d : ℚ) (s : EngineState) : Prop :=
  s.gameState = GameState.PLAYING
  ∧ s.player = initialPlayer
  ∧ 20 ≤ s.speed ∧ s.speed ≤ 60
  ∧ s.coins = c0 + collected d
  ∧ ∃ obs : List GameObject,
      s.objects = (liveCoinZs d).map coinObj ++ obs
      ∧ ∀ o ∈ obs, o.lane = 1

theorem InvC5_step (c0 : ℕ) (d : ℚ) (s : EngineState) (h : InvC5 c0 d s) :
    InvC5 c0 (d + speedStep s.speed) (update oracleObs s).1
    ∧ 20 ≤ speedStep s.speed
    ∧ collected d ≤ collected (d + speedStep s.speed)
    ∧ coinEvents (update oracleObs s).2 =
        (List.range (collected (d + speedStep s.speed) - collected d)).map
          fun j => c0 + collected d + j + 1 := by
  obtain ⟨hgs, hpl, hs20, hs60, hcoins, obs, hobjs, hobs⟩ := h
  have hsp20 : 20 ≤ speedStep s.speed := speedStep_ge_of_ge hs20
  have hsp60 : speedStep s.speed ≤ 60 := speedStep_le_max s.speed
  have hsp0 : 0 < speedStep s.speed := by linarith
  have hplane : (stepPlayer s.player).lane = 0 := by
    rw [hpl, stepPlayer_initialPlayer]
    rfl
  obtain ⟨tl, htl, htlp⟩ := updObjs_split oracleObs s
  have htl1 : ∀ o ∈ tl, o.lane = 1 := by
    intro o ho
    rw [(htlp o ho).2.1, spawnLane_oracleObs]
  have hlist : updObjs oracleObs s = (liveCoinZs d).map coinObj ++ (obs ++ tl) := by
    rw [htl, hobjs, List.append_assoc]
  have hobs2 : ∀ o ∈ obs ++ tl, o.lane = 1 := by
    intro o ho
    rcases List.mem_append.mp ho with ho | ho
    · exact hobs o ho
    · exact htl1 o ho
  -- the two halves of the loop
  have hcoinsRes := processObjects_coinList (stepPlayer s.player) hplane
    (speedStep s.speed) hsp0 hsp60
    (s.score + ⌊speedStep s.speed / 10⌋) (s.distance + speedStep s.speed / 10)
    (liveCoinZs d) s.coins
  have hneutral : ∀ o ∈ obs ++ tl,
      objNeutral (stepPlayer s.player) (speedStep s.speed) o :=
    fun o ho => objNeutral_lane1 _ hplane _ o (hobs2 o ho)
  have hobsRes := processObjects_neutral (stepPlayer s.player) (speedStep s.speed)
    (s.score + ⌊speedStep s.speed / 10⌋) (s.distance + speedStep s.speed / 10)
    (obs ++ tl) hneutral
    (s.coins + ((liveCoinZs d).countP fun z => decide (crossP (speedStep s.speed) z)))
  have hres : updRes oracleObs s =
      { objs := (((liveCoinZs d).map fun z => z - speedStep s.speed).filter
            fun z => decide (z + 50 > -500)).map coinObj
          ++ moveCullList (speedStep s.speed) (obs ++ tl)
        coins := s.coins
          + ((liveCoinZs d).countP fun z => decide (crossP (speedStep s.speed) z))
        events := buildEvents (speedStep s.speed) s.coins (liveCoinZs d)
        over := false } := by
    unfold updRes
    rw [hlist]
    rw [processObjects_append_quiet (stepPlayer s.player) (speedStep s.speed)
      (s.score + ⌊speedStep s.speed / 10⌋) (s.distance + speedStep s.speed / 10)
      ((liveCoinZs d).map coinObj) (obs ++ tl) s.coins
      (by rw [hcoinsRes]) (by rw [hcoinsRes, hobsRes])]
    rw [hcoinsRes, hobsRes]
    simp
  have hcstep := collected_step (speedStep s.speed) hsp0 hsp60 d
  rw [update_eq_playing oracleObs s hgs]
  refine ⟨⟨?_, ?_, hsp20, hsp60, ?_, ?_⟩, hsp20, by omega, ?_⟩
  · rw [hres]
    rfl
  · exact hpl ▸ stepPlayer_initialPlayer
  · rw [hres]
    show s.coins + _ = c0 + collected (d + speedStep s.speed)
    omega
  · refine ⟨moveCullList (speedStep s.speed) (obs ++ tl), ?_, ?_⟩
    · rw [hres]
      show _ ++ _ = _ ++ _
      rw [liveCoinZs_step (speedStep s.speed) hsp0 d]
    · exact moveCullList_lane _ _ hobs2
  · show coinEvents (GEvent.scoreUpdate _ :: (updRes oracleObs s).events) = _
    rw [show ∀ es, coinEvents (GEvent.scoreUpdate
        (s.score + ⌊speedStep s.speed / 10⌋) :: es) = coinEvents es from fun es => rfl]
    rw [hres]
    show coinEvents (buildEvents (speedStep s.speed) s.coins (liveCoinZs d)) = _
    rw [coinEvents_buildEvents, hcoins]
    have hk : ((liveCoinZs d).countP fun z => decide (crossP (speedStep s.speed) z))
        = collected (d + speedStep s.speed) - collected d := by omega
    rw [hk]

theorem coinEvents_append (a b : List GEvent) :
    coinEvents (a ++ b) = coinEvents a ++ coinEvents b := by
  unfold coinEvents
  exact List.filterMap_append _ _ _

theorem runSteps_succ (r : SpawnRand) (n : ℕ) (s : EngineState) :
    runSteps r (n + 1) s =
      ((runSteps r n (update r s).1).1,
        (update r s).2 ++ (runSteps r n (update r s).1).2) := rfl

theorem range_map_glue (b a c : ℕ) :
    ((List.range a).map fun j => b + j + 1)
        ++ ((List.range c).map fun j => b + a + j + 1)
      = (List.range (a + c)).map fun j => b + j + 1 := by
  rw [List.range_add, List.map_append, List.map_map]
  congr 1
  apply List.map_congr_left
  intro j _
  simp only [Function.comp_apply]
  omega

theorem InvC5_run (c0 : ℕ) :
    ∀ (n : ℕ) (d : ℚ) (s : EngineState), 0 ≤ d → InvC5 c0 d s →
      ∃ d2 : ℚ, 0 ≤ d2 ∧ d + 20 * n ≤ d2
        ∧ InvC5 c0 d2 (runSteps oracleObs n s).1
        ∧ collected d ≤ collected d2
        ∧ coinEvents (runSteps oracleObs n s).2 =
            (List.range (collected d2 - collected d)).map
              fun j => c0 + collected d + j + 1 := by
  intro n
  induction n with
  | zero =>
    intro d s hd hinv
    refine ⟨d, hd, by norm_num, hinv, le_refl _, ?_⟩
    simp [runSteps, coinEvents]
  | succ n ih =>
    intro d s hd hinv
    obtain ⟨hinv1, hsp20, hmono1, hev1⟩ := InvC5_step c0 d s hinv
    have hd1 : (0 : ℚ) ≤ d + speedStep s.speed := by linarith
    obtain ⟨d2, hd2, hbound, hinv2, hmono2, hev2⟩ :=
      ih (d + speedStep s.speed) (update oracleObs s).1 hd1 hinv1
    refine ⟨d2, hd2, ?_, ?_, le_trans hmono1 hmono2, ?_⟩
    · push_cast
      linarith
    · rw [runSteps_succ]
      exact hinv2
    · rw [runSteps_succ]
      show coinEvents ((update oracleObs s).2 ++ _) = _
      rw [coinEvents_append, hev1, hev2]
      have hsubst : ((List.range (collected d2
            - collected (d + speedStep s.speed))).map
              fun j => c0 + collected (d + speedStep s.speed) + j + 1)
          = ((List.range (collected d2 - collected (d + speedStep s.speed))).map
              fun j => c0 + collected d
                + (collected (d + speedStep s.speed) - collected d) + j + 1) := by
        apply List.map_congr_left
        intro j _
        omega
      rw [hsubst, range_map_glue]
      have hxy : (collected (d + speedStep s.speed) - collected d)
            + (collected d2 - collected (d + speedStep s.speed))
          = collected d2 - collected d := by omega
      rw [hxy]

theorem collected_zero : collected 0 = 0 := by
  unfold collected
  rw [List.countP_eq_zero]
  intro i _
  simp only [decide_eq_true_eq, not_lt]
  unfold coinZ
  have : (0 : ℚ) ≤ (i : ℚ) * 150 := by positivity
  linarith

theorem collected_full (d : ℚ) (h : 3550 < d) : collected d = 5 := by
  unfold collected
  have hall : ∀ i ∈ List.range 5,
      (fun i => decide (coinZ i - d < 50)) i = true := by
    intro i hi
    rw [List.mem_range] at hi
    rw [decide_eq_true_eq]
    unfold coinZ
    have hi4 : (i : ℚ) ≤ 4 := by exact_mod_cast Nat.lt_succ_iff.mp hi
    linarith
  rw [List.countP_eq_length.mpr hall, List.length_range]

theorem liveCoinZs_zero :
    (liveCoinZs 0).map coinObj = (List.range 5).map fun i => coinObj (coinZ i) := by
  unfold liveCoinZs
  have h1 : (baseZ.map fun z => z - 0) = baseZ := by
    have := List.map_congr_left (l := baseZ) (f := fun z => z - (0 : ℚ)) (g := id)
      (fun a _ => by simp)
    rw [this, List.map_id]
  rw [h1]
  have h2 : (baseZ.filter fun z => decide (z + 50 > -500)) = baseZ := by
    apply List.filter_eq_self.mpr
    intro z hz
    unfold baseZ at hz
    rw [List.mem_map] at hz
    obtain ⟨i, _, rfl⟩ := hz
    rw [decide_eq_true_eq]
    unfold coinZ
    have : (0 : ℚ) ≤ (i : ℚ) * 150 := by positivity
    linarith
  rw [h2]
  unfold baseZ
  rw [List.map_map]
  rfl

/-- The C5 scenario start state: the freshly spawned five-coin line ahead
of the center-lane player, with arbitrary counters and any starting speed. -/
def c5Start (c0 : ℕ) (sc : ℤ) (dist0 sp0 : ℚ) (fc : ℕ) : EngineState :=
  { gameState := GameState.PLAYING, player := initialPlayer
    objects := (List.range 5).map fun i => coinObj (coinZ i)
    speed := sp0, score := sc, coins := c0, distance := dist0, frameCount := fc }

theorem range5_map_consecutive (c0 : ℕ) :
    ((List.range 5).map fun j => c0 + 0 + j + 1)
      = [c0 + 1, c0 + 2, c0 + 3, c0 + 4, c0 + 5] := by
  norm_num [List.range_succ]

/-- **C5.** The pickup spawn places the fixed-count line of five active
coins at fixed depth increments in the chosen lane; and if the player
stays in that lane (parked at its center) while the run continues — here:
every further spawn goes to another lane, so nothing can hit — then over
the subsequent Simulation Steps, from any starting speed in the configured
range, the coin counter increases by exactly 5, the coins are collected in
order of increasing spawn depth, and a coins-changed signal is emitted for
each collected coin, carrying the successive counter values. -/
theorem C5_coin_line (c0 : ℕ) (sc : ℤ) (dist0 sp0 : ℚ) (fc : ℕ) (n : ℕ)
    (hsp1 : 20 ≤ sp0) (hsp2 : sp0 ≤ 60) (hn : 178 ≤ n) :
    spawnObject oracleCoins [] = (List.range 5).map (fun i => coinObj (coinZ i))
    ∧ (runSteps oracleObs n (c5Start c0 sc dist0 sp0 fc)).1.coins = c0 + 5
    ∧ coinEvents (runSteps oracleObs n (c5Start c0 sc dist0 sp0 fc)).2
        = [c0 + 1, c0 + 2, c0 + 3, c0 + 4, c0 + 5] := by
  have hinv0 : InvC5 c0 0 (c5Start c0 sc dist0 sp0 fc) := by
    refine ⟨rfl, rfl, hsp1, hsp2, ?_, [], ?_, by simp⟩
    · rw [collected_zero]
      rfl
    · show (List.range 5).map (fun i => coinObj (coinZ i)) = _
      rw [List.append_nil, liveCoinZs_zero]
  obtain ⟨d2, hd2, hbound, hinv2, _, hev⟩ :=
    InvC5_run c0 n 0 (c5Start c0 sc dist0 sp0 fc) (le_refl 0) hinv0
  have hd2big : (3550 : ℚ) < d2 := by
    have hn178 : (178 : ℚ) ≤ (n : ℚ) := by exact_mod_cast hn
    have : (0 : ℚ) + 20 * (n : ℚ) ≤ d2 := hbound
    linarith
  have hc5 : collected d2 = 5 := collected_full d2 hd2big
  refine ⟨spawnObject_coinLine, ?_, ?_⟩
  · have := hinv2.2.2.2.2.1
    rw [this, hc5]
  · rw [hev, collected_zero, hc5]
    exact range5_map_consecutive c0

/-- Witness for C5 at `c0 = 3`, zero counters, minimum speed and
`n = 178` frames. -/
theorem C5_witness :
    spawnObject oracleCoins [] = (List.range 5).map (fun i => coinObj (coinZ i))
    ∧ (runSteps oracleObs 178 (c5Start 3 0 0 20 0)).1.coins = 3 + 5
    ∧ coinEvents (runSteps oracleObs 178 (c5Start 3 0 0 20 0)).2
        = [3 + 1, 3 + 2, 3 + 3, 3 + 4, 3 + 5] :=
  C5_coin_line 3 0 0 20 0 178 (by norm_num) (by norm_num) (le_refl 178)

/-! ## C9: renderer determinism and the time-varying coin spin -/

theorem mem_insertByZ (o a : GameObject) :
    ∀ l : List GameObject, a ∈ insertByZ o l → a = o ∨ a ∈ l := by
  intro l
  induction l with
  | nil =>
    intro h
    rw [show insertByZ o [] = [o] from rfl, List.mem_singleton] at h
    exact Or.inl h
  | cons b l ih =>
    intro h
    unfold insertByZ at h
    split_ifs at h
    · rcases List.mem_cons.mp h with h | h
      · exact Or.inl h
      · exact Or.inr h
    · rcases List.mem_cons.mp h with h | h
      · exact Or.inr (List.mem_cons.mpr (Or.inl h))
      · rcases ih h with h | h
        · exact Or.inl h
        · exact Or.inr (List.mem_cons.mpr (Or.inr h))

theorem mem_sortByZDesc (a : GameObject) :
    ∀ l : List GameObject, a ∈ sortByZDesc l → a ∈ l := by
  intro l
  induction l with
  | nil => intro h; cases h
  | cons b l ih =>
    intro h
    unfold sortByZDesc at h
    rcases mem_insertByZ b a (sortByZDesc l) h with h | h
    · exact h ▸ List.mem_cons_self b l
    · exact List.mem_cons_of_mem b (ih h)

theorem flatMap_congr {α β : Type} (f g : α → List β) :
    ∀ l : List α, (∀ a ∈ l, f a = g a) → l.flatMap f = l.flatMap g := by
  intro l
  induction l with
  | nil => intro _; rfl
  | cons a l ih =>
    intro h
    rw [List.flatMap_cons, List.flatMap_cons,
      h a (List.mem_cons_self a l), ih fun b hb => h b (List.mem_cons_of_mem a hb)]

theorem objectCmds_spin_eq (spin1 spin2 width height : ℚ) (o : GameObject)
    (h : o.active = true → o.type ≠ ObjType.COIN) :
    objectCmds spin1 width height o = objectCmds spin2 width height o := by
  unfold objectCmds
  by_cases ha : o.active = true
  · rw [if_neg (not_not_intro ha), if_neg (not_not_intro ha)]
    cases htyp : o.type with
    | COIN => exact absurd htyp (h ha)
    | TRAIN => rfl
    | BARRIER_LOW => rfl
    | BARRIER_HIGH => rfl
  · rw [if_pos ha, if_pos ha]

/-- **C9 (amended).** The Renderer is a pure function of the World State
and the oscillation phase `Math.sin(Date.now() / 100)` sampled at the
invocation instant — it mutates nothing. Two invocations on an unchanged
World State paint pixel-identical frames whenever that phase agrees, and
whenever no active pickup is in the state the frames are pixel-identical
regardless of the phase; only the pickup spin width depends on the clock. -/
theorem C9_renderer_phase (s : EngineState) (spin1 spin2 width height : ℚ)
    (h : ∀ o ∈ s.objects, o.active = true → o.type ≠ ObjType.COIN) :
    draw s spin1 width height = draw s spin2 width height := by
  unfold draw
  congr 1
  congr 1
  exact flatMap_congr _ _ (sortByZDesc s.objects) fun o ho =>
    objectCmds_spin_eq spin1 spin2 width height o
      (h o (mem_sortByZDesc o s.objects ho))

/-- The C9 counterexample state: one live coin in view (run state MENU so
the player layer stays out of the picture, which only shortens the frame). -/
def cexDraw : EngineState :=
  { gameState := GameState.MENU, player := initialPlayer
    objects := [{ id := 0, lane := 0, z := 0, type := ObjType.COIN, active := true }]
    speed := 20, score := 0, coins := 0, distance := 0, frameCount := 0 }

/-- Witness for the amended C9: the reset state holds no pickup, so two
invocations at different phases paint the same frame. -/
theorem C9_witness : draw resetState 0 1 1 = draw resetState 1 1 1 :=
  C9_renderer_phase resetState 0 1 1 1
    (fun o ho _ => absurd ho (List.not_mem_nil o))

/-- **C9 counterexample.** Re-invoking the Renderer on the unchanged
World State `cexDraw` at two instants whose oscillation values are `0`
and `1` (the clock hitting different phases of the spin oscillation)
paints different pixels: the coin ellipse width is `0` in one frame and
positive in the other, refuting pixel-identity of re-invocation on an
unchanged state. -/
theorem C9_counterexample : draw cexDraw 0 1000 800 ≠ draw cexDraw 1 1000 800 := by
  intro h
  have h5 := congrArg (fun l => l.get? 4) h
  simp only [draw, cexDraw, sortByZDesc, insertByZ, objectCmds, playerCmds,
    List.flatMap_cons, List.flatMap_nil, List.append_nil, List.cons_append,
    List.nil_append, List.get?] at h5
  norm_num [DrawCmd.fillEllipse.injEq, project3D, cameraZ, perspective,
    cameraHeight, getLaneX, TRACK_WIDTH, HORIZON_Y] at h5

end Subway
